import Mathlib

/-!
The resolution and verification pipeline of http_check.

A shallow embedding of `main.go`.  The network, the random source and the
library helpers the program calls are parameters (`World`); a run-time panic
or a deadlock of the Go program is the `Except.error` branch of a result.
-/

namespace HttpCheck

/-- A `net.IP` value: a byte slice, the nil slice being `none`. -/
abbrev IP := Option (List Nat)

/-- The struct `DomIp` of the source. -/
structure DomIp where
  Dom : String
  Ip : IP
  Body : String
deriving DecidableEq, Repr

/-- The struct `DnsResolver` of the source. -/
structure DnsResolver where
  Servers : List String
  RetryTimes : Int
deriving DecidableEq, Repr

/-- A resource record of a DNS answer: an `*dns.A` with its address, or a record of another type. -/
inductive RR where
  | A (a : IP)
  | other (rrtype : Nat)
deriving DecidableEq, Repr

/-- The fields of `dns.Msg` the program reads. -/
structure Msg where
  Rcode : Nat
  Answer : List RR
deriving DecidableEq, Repr

/-- What one call of `dns.Exchange` returns: the pair `(in, err)`. -/
structure ExchangeResult where
  msg : Option Msg
  err : Option String
deriving DecidableEq, Repr

/-- The fields of `http.Request` the program sets. -/
structure Request where
  Method : String
  URL : String
  Host : String
deriving DecidableEq, Repr

/-- The fields of `http.Response` the program reads; `Body` is what `ioutil.ReadAll` yields. -/
structure Response where
  StatusCode : Int
  Body : String
deriving DecidableEq, Repr

/-- What one call of `client.Do` returns: the pair `(a, err)`. -/
structure DoResult where
  resp : Option Response
  err : Option String
deriving DecidableEq, Repr

/-- An observable call to the outside world. -/
inductive Event where
  | exchange (host server : String)
deriving DecidableEq, Repr

/-- The outside world: library functions and network outcomes the program depends on.
`Intn host attempt` is the raw draw behind `rand.Intn` at the given attempt of a lookup,
`Exchange host server attempt` the outcome of that attempt's `dns.Exchange`,
`Do pass req` the outcome of `client.Do` in the given verification pass. -/
structure World where
  ParseIP : String → IP
  IPString : IP → String
  Intn : String → Nat → Nat
  Exchange : String → String → Nat → ExchangeResult
  RcodeToString : Nat → String
  NewRequest : String → String → Except String Request
  Do : Nat → Request → DoResult

/-- The process-wide configuration set up by `init`; `concurrency` is read as a `uint`. -/
structure Config where
  resolver : DnsResolver
  concurrency : Nat
  url : String
  keepalive : Bool

def RcodeSuccess : Nat := 0

def RcodeServerFailure : Nat := 2

def RcodeRefused : Nat := 5

/-- The test `strings.HasSuffix`. -/
def HasSuffix (s suffix : String) : Bool :=
  suffix.data.isSuffixOf s.data

/-- The address carried by a record when it is an `*dns.A`. -/
def aRecord : RR → Option IP
  | RR.A a => some a
  | RR.other _ => none

/-- The server of one attempt: `r.Servers[rand.Intn(len(r.Servers))]`, for a non-empty
server list. -/
def pickServer (w : World) (r : DnsResolver) (host : String) (attempt : Nat) : String :=
  r.Servers.getD (w.Intn host attempt % r.Servers.length) ""

/-- The method `lookupHost`: one `dns.Exchange` against a randomly chosen server, retried
on an i/o timeout, SERVFAIL or REFUSED while `triesLeft > 0`.  Returns the pair
`(result, err)` and the exchanges performed; `attempt` numbers the exchange for `World`. -/
def lookupHost (w : World) (r : DnsResolver) (host : String) (triesLeft : Int) (attempt : Nat) :
    Except String ((List IP × Option String) × List Event) :=
  if r.Servers.length = 0 then
    Except.error "invalid argument to Intn"
  else
    let server := pickServer w r host attempt
    let x := w.Exchange host server attempt
    match x.err with
    | some e =>
      if h : HasSuffix e "i/o timeout" = true ∧ triesLeft > 0 then
        (lookupHost w r host (triesLeft - 1) (attempt + 1)).map
          (fun p => (p.1, Event.exchange host server :: p.2))
      else
        Except.ok (([], some e), [Event.exchange host server])
    | none =>
      match x.msg with
      | none => Except.error "invalid memory address or nil pointer dereference"
      | some m =>
        if m.Rcode = RcodeServerFailure ∨ m.Rcode = RcodeRefused then
          if h : triesLeft > 0 then
            (lookupHost w r host (triesLeft - 1) (attempt + 1)).map
              (fun p => (p.1, Event.exchange host server :: p.2))
          else
            Except.ok (([], some (w.RcodeToString m.Rcode)), [Event.exchange host server])
        else if m.Rcode ≠ RcodeSuccess then
          Except.ok (([], some (w.RcodeToString m.Rcode)), [Event.exchange host server])
        else
          Except.ok ((m.Answer.filterMap aRecord, none), [Event.exchange host server])
termination_by triesLeft.toNat
decreasing_by
  all_goals simp_wf
  all_goals omega

/-- The method `LookupHost`. -/
def LookupHost (w : World) (r : DnsResolver) (host : String) :
    Except String ((List IP × Option String) × List Event) :=
  lookupHost w r host r.RetryTimes 0

/-- The body of the loop of `resolv` for one job: the target sent on `results` and the
DNS exchanges made for it. -/
def resolvStep (w : World) (c : Config) (dom : String) : Except String (DomIp × List Event) :=
  let domip : DomIp := { Dom := dom, Ip := none, Body := "" }
  match w.ParseIP dom with
  | some ip => Except.ok ({ domip with Ip := some ip }, [])
  | none =>
    match LookupHost w c.resolver dom with
    | Except.error e => Except.error e
    | Except.ok ((ips, err), evs) =>
      match err with
      | some _ => Except.ok (domip, evs)
      | none =>
        match ips with
        | [] => Except.error "index out of range [0] with length 0"
        | ip :: _ => Except.ok ({ domip with Ip := ip }, evs)

/-- The workers `resolv` over the jobs they receive: the targets sent on `results` and the
exchanges made.  A panic of one worker ends the process. -/
def resolv (w : World) (c : Config) : List String → Except String (List DomIp × List Event)
  | [] => Except.ok ([], [])
  | dom :: jobs =>
    match resolvStep w c dom with
    | Except.error e => Except.error e
    | Except.ok (domip, evs) =>
      match resolv w c jobs with
      | Except.error e => Except.error e
      | Except.ok (results, log) => Except.ok (domip :: results, evs ++ log)

/-- The function `httpReq` in verification pass `pass`: the target with its `Body` as left
by the call, and the returned error (`none` is the nil error). -/
def httpReq (w : World) (c : Config) (pass : Nat) (domip : DomIp) :
    Except String (DomIp × Option String) :=
  let ip := w.IPString domip.Ip
  match w.NewRequest "GET" ("http://" ++ ip ++ c.url) with
  | Except.error e => Except.error e
  | Except.ok req0 =>
    let req : Request := { req0 with Host := domip.Dom }
    let r := w.Do pass req
    match r.err with
    | some err => Except.ok (domip, some err)
    | none =>
      match r.resp with
      | none => Except.error "invalid memory address or nil pointer dereference"
      | some a =>
        if a.StatusCode ≠ 200 then
          Except.ok (if c.keepalive then { domip with Body := a.Body } else domip,
            some "Answer != 200")
        else
          Except.ok (if c.keepalive then { domip with Body := a.Body } else domip, none)

/-- The channels a verification pass writes, with the calls of `httpReq` it made. -/
structure Chans where
  dnsErrors : List String
  httpErrors : List DomIp
  checked : List DomIp
deriving DecidableEq, Repr

/-- The body of the loop of `resParse` for one target.  `dnsClosed` tells whether the
channel `dnsErrors` has been closed, in which case a send on it panics. -/
def resParseStep (w : World) (c : Config) (pass : Nat) (dnsClosed : Bool) (s : Chans)
    (domip : DomIp) : Except String Chans :=
  match domip.Ip with
  | none =>
    if dnsClosed then Except.error "send on closed channel"
    else Except.ok { s with dnsErrors := s.dnsErrors ++ [domip.Dom] }
  | some _ =>
    match httpReq w c pass domip with
    | Except.error e => Except.error e
    | Except.ok (domip1, err) =>
      match err with
      | some _ =>
        Except.ok { s with httpErrors := s.httpErrors ++ [domip1], checked := s.checked ++ [domip] }
      | none => Except.ok { s with checked := s.checked ++ [domip] }

/-- The workers `resParse` over the targets they receive from `doms`. -/
def resParse (w : World) (c : Config) (pass : Nat) (dnsClosed : Bool) :
    List DomIp → Chans → Except String Chans
  | [], s => Except.ok s
  | domip :: doms, s =>
    match resParseStep w c pass dnsClosed s domip with
    | Except.error e => Except.error e
    | Except.ok s1 => resParse w c pass dnsClosed doms s1

/-- The number of values of the type `uint` on a 64-bit platform. -/
def uintSize : Nat := 2 ^ 64

/-- The loop `for d := uint(1); d <= *concurrency; d++` that starts one worker per
iteration, from the counter `d` with `n` workers started: the number of workers started
when the loop ends.  The increment wraps at `uintSize`; `fuel` bounds the iterations. -/
def launchLoop : Nat → Nat → Nat → Nat → Option Nat
  | 0, _, _, _ => none
  | fuel + 1, d, concurrency, n =>
    if d ≤ concurrency then launchLoop fuel ((d + 1) % uintSize) concurrency (n + 1)
    else some n

/-- The loop that starts the workers, run on the `uint` value of the flag `-c`: `none`
when it never ends.  The counter takes `uintSize` values, so a loop that has not ended
after `uintSize` iterations never ends. -/
def launched (concurrency : Nat) : Option Nat :=
  launchLoop uintSize 1 (concurrency % uintSize) 0

/-- The function `reqGo` followed by the wait for its workers: it never returns when the
loop that starts the workers never ends, and with no worker nothing is consumed. -/
def reqGo (w : World) (c : Config) (pass : Nat) (dnsClosed : Bool) (doms : List DomIp)
    (s : Chans) : Except String Chans :=
  match launched c.concurrency with
  | none => Except.error "the loop that starts the workers never ends"
  | some n => if n = 0 then Except.ok s else resParse w c pass dnsClosed doms s

/-- The function `removeDuplicates`. -/
def removeDuplicates (elements : List String) : List String :=
  (List.range elements.length).foldl
    (fun result i =>
      let found := (List.range i).any (fun v => elements.getD v "" == elements.getD i "")
      if !found then result ++ [elements.getD i ""] else result)
    []

/-- The order in which concurrent workers fill a buffered channel: any rearrangement of
what they send. -/
structure Sched where
  dnsOrder : List String → List String
  httpOrder : Nat → List DomIp → List DomIp
  dnsOrder_perm : ∀ l, (dnsOrder l).Perm l
  httpOrder_perm : ∀ p l, (httpOrder p l).Perm l

/-- The state of `main` when the report starts: the content of the channels `dnsErrors`,
`httpErr1Pass` (as read at the decision) and `httpErr2Pass`, whether the second pass ran,
the DNS exchanges of the run and the calls of `httpReq` of each pass. -/
structure Final where
  dnsErrors : List String
  httpErr1Pass : List DomIp
  httpErr2Pass : List DomIp
  secondPass : Bool
  exchanges : List Event
  checked1 : List DomIp
  checked2 : List DomIp
deriving DecidableEq, Repr

/-- The function `main` up to the report: both pools of pass 1, the decision and the
second pass. -/
def pipeline (w : World) (c : Config) (sched : Sched) (args : List String) :
    Except String Final :=
  let doms := removeDuplicates args
  match launched c.concurrency with
  | none => Except.error "the loop that starts the workers never ends"
  | some n =>
    if n = 0 ∧ doms ≠ [] then
      Except.error "all goroutines are asleep - deadlock!"
    else
      match resolv w c doms with
      | Except.error e => Except.error e
      | Except.ok (targets, exchanges) =>
        match reqGo w c 1 false targets { dnsErrors := [], httpErrors := [], checked := [] } with
        | Except.error e => Except.error e
        | Except.ok s1 =>
          let dnsErrors := sched.dnsOrder s1.dnsErrors
          let httpErr1Pass := sched.httpOrder 1 s1.httpErrors
          if httpErr1Pass.length ≠ 0 ∧ httpErr1Pass.length ≤ 10 then
            match reqGo w c 2 true httpErr1Pass
                { dnsErrors := dnsErrors, httpErrors := [], checked := [] } with
            | Except.error e => Except.error e
            | Except.ok s2 =>
              Except.ok
                { dnsErrors := s2.dnsErrors, httpErr1Pass := httpErr1Pass,
                  httpErr2Pass := sched.httpOrder 2 s2.httpErrors, secondPass := true,
                  exchanges := exchanges, checked1 := s1.checked, checked2 := s2.checked }
          else
            Except.ok
              { dnsErrors := dnsErrors, httpErr1Pass := httpErr1Pass,
                httpErr2Pass := httpErr1Pass, secondPass := false,
                exchanges := exchanges, checked1 := s1.checked, checked2 := [] }

/-- The report of `main`: the text printed and the exit status. -/
def report (dnsErrors : List String) (httpErr2Pass : List DomIp) : String × Nat :=
  let e : Nat := 0
  let out : String := ""
  let out :=
    if dnsErrors.length + httpErr2Pass.length = 0 then out ++ "All domains passed PHP check"
    else out
  let (out, e) :=
    if httpErr2Pass.length ≠ 0 then
      (httpErr2Pass.foldl (fun o domip => o ++ (domip.Dom ++ " ")) (out ++ "PHP_CRITICAL: "),
        e + 1)
    else (out, e)
  let (out, e) :=
    if dnsErrors.length ≠ 0 then
      (dnsErrors.foldl (fun o dom => o ++ (dom ++ " ")) (out ++ "DNS_CRITICAL: "), e + 1)
    else (out, e)
  let out := out ++ "\n"
  (out, if e ≠ 0 then 2 else 0)

/-- The function `main`: what is printed and the exit status. -/
def main (w : World) (c : Config) (sched : Sched) (args : List String) :
    Except String (String × Nat) :=
  match pipeline w c sched args with
  | Except.error e => Except.error e
  | Except.ok f => Except.ok (report f.dnsErrors f.httpErr2Pass)

/-- The target `httpReq` leaves on the failure channel of a pass, if the check fails. -/
def failedCheck (w : World) (c : Config) (pass : Nat) (domip : DomIp) : Option DomIp :=
  match httpReq w c pass domip with
  | Except.ok (domip1, some _) => some domip1
  | _ => none

/-- An exchange without transport error whose response carries the code `rcode`. -/
def Answers (x : ExchangeResult) (rcode : Nat) : Prop :=
  x.err = none ∧ ∃ m, x.msg = some m ∧ m.Rcode = rcode

/-- An exchange that ends in a transport error whose text ends in `i/o timeout`. -/
def TimesOut (x : ExchangeResult) : Prop :=
  ∃ e, x.err = some e ∧ HasSuffix e "i/o timeout" = true

/-- The outcomes `lookupHost` retries: an i/o timeout, SERVFAIL or REFUSED. -/
def Transient (x : ExchangeResult) : Prop :=
  TimesOut x ∨ Answers x RcodeServerFailure ∨ Answers x RcodeRefused

/-- The text of `dns.RcodeToString` for the codes used in the examples. -/
def rcodeText (rc : Nat) : String :=
  if rc = 0 then "NOERROR" else if rc = 2 then "SERVFAIL" else if rc = 3 then "NXDOMAIN"
  else if rc = 5 then "REFUSED" else ""

/-- A world for the examples: no name is an IP literal except `10.0.0.1`, every DNS
exchange answers with the code `rc` and the records `ans`, every HTTP exchange returns
the status `status`. -/
def exampleWorld (rc : Nat) (ans : List RR) (status : Int) : World where
  ParseIP := fun s => if s = "10.0.0.1" then some [10, 0, 0, 1] else none
  IPString := fun _ => "10.0.0.1"
  Intn := fun _ a => a
  Exchange := fun _ _ _ => { msg := some { Rcode := rc, Answer := ans }, err := none }
  RcodeToString := rcodeText
  NewRequest := fun m u => Except.ok { Method := m, URL := u, Host := "" }
  Do := fun _ _ => { resp := some { StatusCode := status, Body := "body" }, err := none }

/-- A resolver built by `NewResolver` from the default server list. -/
def exampleResolver : DnsResolver :=
  { Servers := ["8.8.8.8:53", "8.8.4.4:53"], RetryTimes := 4 }

/-- A configuration with the defaults of `init`. -/
def exampleConfig : Config :=
  { resolver := exampleResolver, concurrency := 20, url := ":80/nagios_check.php",
    keepalive := false }

/-- The schedule in which every channel keeps the order of the sends. -/
def fifo : Sched where
  dnsOrder := fun l => l
  httpOrder := fun _ l => l
  dnsOrder_perm := fun l => List.Perm.refl l
  httpOrder_perm := fun _ l => List.Perm.refl l

/-- The world `w` with every response body rewritten by `g`. -/
def withBodies (w : World) (g : String → String) : World :=
  { w with Do := fun p req =>
      { resp := (w.Do p req).resp.map (fun a => { a with Body := g a.Body }),
        err := (w.Do p req).err } }

/-- The state at the report of the run on `10.0.0.1` alone when every check answers 503. -/
def exampleFinalLiteral : Final :=
  { dnsErrors := [],
    httpErr1Pass := [{ Dom := "10.0.0.1", Ip := some [10, 0, 0, 1], Body := "" }],
    httpErr2Pass := [{ Dom := "10.0.0.1", Ip := some [10, 0, 0, 1], Body := "" }],
    secondPass := true, exchanges := [],
    checked1 := [{ Dom := "10.0.0.1", Ip := some [10, 0, 0, 1], Body := "" }],
    checked2 := [{ Dom := "10.0.0.1", Ip := some [10, 0, 0, 1], Body := "" }] }

/-- The state at the report of the run on `10.0.0.1`, `bad.invalid`, `10.0.0.1` when DNS
answers NXDOMAIN and every check answers 200. -/
def exampleFinalMixed : Final :=
  { dnsErrors := ["bad.invalid"], httpErr1Pass := [], httpErr2Pass := [],
    secondPass := false, exchanges := [Event.exchange "bad.invalid" "8.8.8.8:53"],
    checked1 := [{ Dom := "10.0.0.1", Ip := some [10, 0, 0, 1], Body := "" }],
    checked2 := [] }

/-- The schedule in which every channel is read in the reverse order of the sends. -/
def lifo : Sched where
  dnsOrder := fun l => l.reverse
  httpOrder := fun _ l => l.reverse
  dnsOrder_perm := fun l => List.reverse_perm l
  httpOrder_perm := fun _ l => List.reverse_perm l

/-- Eleven address literals with their addresses. -/
def farm : List (String × List Nat) :=
  [("10.0.0.1", [10, 0, 0, 1]), ("10.0.0.2", [10, 0, 0, 2]), ("10.0.0.3", [10, 0, 0, 3]),
    ("10.0.0.4", [10, 0, 0, 4]), ("10.0.0.5", [10, 0, 0, 5]), ("10.0.0.6", [10, 0, 0, 6]),
    ("10.0.0.7", [10, 0, 0, 7]), ("10.0.0.8", [10, 0, 0, 8]), ("10.0.0.9", [10, 0, 0, 9]),
    ("10.0.0.10", [10, 0, 0, 10]), ("10.0.0.11", [10, 0, 0, 11])]

/-- The targets of the eleven literals. -/
def farmTargets : List DomIp :=
  farm.map (fun p => { Dom := p.1, Ip := some p.2, Body := "" })

/-- A world for the examples: the names of `farm` are the IP literals, every DNS exchange
answers NXDOMAIN, and the HTTP exchange of pass `pass` for the host `host` returns the
status `status pass host`. -/
def farmWorld (status : Nat → String → Int) : World where
  ParseIP := fun s => farm.lookup s
  IPString := fun ip =>
    match farm.find? (fun p => some p.2 == ip) with
    | some p => p.1
    | none => "<nil>"
  Intn := fun _ a => a
  Exchange := fun _ _ _ => { msg := some { Rcode := 3, Answer := [] }, err := none }
  RcodeToString := rcodeText
  NewRequest := fun m u => Except.ok { Method := m, URL := u, Host := "" }
  Do := fun pass req =>
    { resp := some { StatusCode := status pass req.Host, Body := "body" }, err := none }

/-- The host `10.0.0.2` always answers 503, the host `10.0.0.3` answers 503 in pass 1
only, every other host answers 200. -/
def flakyStatus (pass : Nat) (host : String) : Int :=
  if host = "10.0.0.2" then 503 else if host = "10.0.0.3" ∧ pass = 1 then 503 else 200

/-- The state at the report of the run of `farmWorld flakyStatus` on `10.0.0.1`,
`bad.invalid`, `10.0.0.2`, `10.0.0.3`, `10.0.0.1` under the schedule `lifo`. -/
def exampleFinalFlaky : Final :=
  { dnsErrors := ["bad.invalid"],
    httpErr1Pass := [{ Dom := "10.0.0.3", Ip := some [10, 0, 0, 3], Body := "" },
      { Dom := "10.0.0.2", Ip := some [10, 0, 0, 2], Body := "" }],
    httpErr2Pass := [{ Dom := "10.0.0.2", Ip := some [10, 0, 0, 2], Body := "" }],
    secondPass := true, exchanges := [Event.exchange "bad.invalid" "8.8.8.8:53"],
    checked1 := [{ Dom := "10.0.0.1", Ip := some [10, 0, 0, 1], Body := "" },
      { Dom := "10.0.0.2", Ip := some [10, 0, 0, 2], Body := "" },
      { Dom := "10.0.0.3", Ip := some [10, 0, 0, 3], Body := "" }],
    checked2 := [{ Dom := "10.0.0.3", Ip := some [10, 0, 0, 3], Body := "" },
      { Dom := "10.0.0.2", Ip := some [10, 0, 0, 2], Body := "" }] }

/-- The state at the report of the run on the eleven literals when every check answers
503. -/
def exampleFinalEleven : Final :=
  { dnsErrors := [], httpErr1Pass := farmTargets, httpErr2Pass := farmTargets,
    secondPass := false, exchanges := [], checked1 := farmTargets, checked2 := [] }

/-- The state at the report of the run on the first ten literals when every check
answers 503. -/
def exampleFinalTen : Final :=
  { dnsErrors := [], httpErr1Pass := farmTargets.take 10, httpErr2Pass := farmTargets.take 10,
    secondPass := true, exchanges := [], checked1 := farmTargets.take 10,
    checked2 := farmTargets.take 10 }

/-! ## The DNS resolver -/

theorem lookupHost_transient (w : World) (r : DnsResolver) (host : String)
    (hs : r.Servers ≠ []) (ht : ∀ s a, Transient (w.Exchange host s a)) :
    ∀ (n : Nat) (triesLeft : Int) (attempt : Nat), triesLeft.toNat = n →
      ∃ e evs, lookupHost w r host triesLeft attempt = Except.ok (([], some e), evs) ∧
        evs.length = n + 1 ∧
        ((∀ s a, Answers (w.Exchange host s a) RcodeServerFailure) →
          e = w.RcodeToString RcodeServerFailure) := by
  have hlen : ¬ r.Servers.length = 0 := fun h => hs (List.length_eq_zero.mp h)
  intro n
  induction n with
  | zero =>
    intro triesLeft attempt hn
    have hle : ¬ triesLeft > 0 := by omega
    rw [lookupHost]
    simp only [hlen, if_false]
    rcases ht (pickServer w r host attempt) attempt with ⟨e, he, _⟩ | ⟨he, m, hm, hrc⟩ | ⟨he, m, hm, hrc⟩
    · refine ⟨e, [Event.exchange host (pickServer w r host attempt)], ?_, rfl, ?_⟩
      · simp [he, hle]
      · intro hall
        have := (hall (pickServer w r host attempt) attempt).1
        rw [he] at this
        cases this
    · refine ⟨w.RcodeToString m.Rcode, [Event.exchange host (pickServer w r host attempt)], ?_, rfl, ?_⟩
      · simp [he, hm, hrc, hle]
      · intro _
        rw [hrc]
    · refine ⟨w.RcodeToString m.Rcode, [Event.exchange host (pickServer w r host attempt)], ?_, rfl, ?_⟩
      · simp [he, hm, hrc, hle]
      · intro hall
        obtain ⟨_, m1, hm1, hrc1⟩ := hall (pickServer w r host attempt) attempt
        rw [hm] at hm1
        cases hm1
        rw [hrc1]
  | succ n ih =>
    intro triesLeft attempt hn
    have hpos : triesLeft > 0 := by omega
    obtain ⟨e, evs, hrec, hlenEvs, hsf⟩ := ih (triesLeft - 1) (attempt + 1) (by omega)
    refine ⟨e, Event.exchange host (pickServer w r host attempt) :: evs, ?_, ?_, hsf⟩
    · rw [lookupHost]
      simp only [hlen, if_false]
      rcases ht (pickServer w r host attempt) attempt with ⟨e1, he, hto⟩ | ⟨he, m, hm, hrc⟩ | ⟨he, m, hm, hrc⟩
      · simp [he, hto, hpos, hrec, Except.map]
      · simp [he, hm, hrc, hpos, hrec, Except.map]
      · simp [he, hm, hrc, hpos, hrec, Except.map]
    · simp [hlenEvs]

/-! ## Deduplication of the arguments -/

theorem removeDuplicates_nil : removeDuplicates [] = [] := rfl

theorem any_getD_append (l : List String) (x y : String) (i : Nat) (hi : i ≤ l.length) :
    (List.range i).any (fun v => (l ++ [x]).getD v "" == y) =
      (List.range i).any (fun v => l.getD v "" == y) := by
  induction i with
  | zero => rfl
  | succ n ih =>
    rw [List.range_succ, List.any_append, List.any_append, ih (by omega)]
    have h : (l ++ [x]).getD n "" = l.getD n "" := List.getD_append l [x] "" n (by omega)
    simp only [List.any_cons, List.any_nil, h]

theorem any_getD_eq_true (l : List String) (y : String) :
    (List.range l.length).any (fun v => l.getD v "" == y) = true ↔ y ∈ l := by
  rw [List.any_eq_true]
  constructor
  · rintro ⟨v, hv, hvx⟩
    have hv1 : v < l.length := List.mem_range.mp hv
    rw [List.getD_eq_getElem l "" hv1] at hvx
    have h : l[v] = y := eq_of_beq hvx
    exact h ▸ List.getElem_mem hv1
  · intro hx
    obtain ⟨v, hv, hvx⟩ := List.mem_iff_getElem.mp hx
    refine ⟨v, List.mem_range.mpr hv, ?_⟩
    rw [List.getD_eq_getElem l "" hv, hvx]
    exact beq_self_eq_true y

theorem removeDuplicates_snoc (l : List String) (x : String) :
    removeDuplicates (l ++ [x]) =
      if x ∈ l then removeDuplicates l else removeDuplicates l ++ [x] := by
  unfold removeDuplicates
  rw [List.length_append, List.length_singleton, List.range_succ, List.foldl_append]
  have hpre : ∀ v, v < l.length → (l ++ [x]).getD v "" = l.getD v "" := fun v hv =>
    List.getD_append l [x] "" v hv
  have hlast : (l ++ [x]).getD l.length "" = x := by
    rw [List.getD_append_right l [x] "" l.length (le_refl _)]
    simp
  have hfold : ∀ acc : List String,
      List.foldl (fun result i =>
          let found := (List.range i).any
            (fun v => (l ++ [x]).getD v "" == (l ++ [x]).getD i "")
          if !found then result ++ [(l ++ [x]).getD i ""] else result) acc (List.range l.length) =
      List.foldl (fun result i =>
          let found := (List.range i).any (fun v => l.getD v "" == l.getD i "")
          if !found then result ++ [l.getD i ""] else result) acc (List.range l.length) := by
    intro acc
    apply List.foldl_ext
    intro a i hi
    have hi1 : i < l.length := List.mem_range.mp hi
    show (if !((List.range i).any (fun v => (l ++ [x]).getD v "" == (l ++ [x]).getD i "")) then
        a ++ [(l ++ [x]).getD i ""] else a) = _
    rw [hpre i hi1, any_getD_append l x _ i (by omega)]
  rw [hfold]
  show (if !((List.range l.length).any
      (fun v => (l ++ [x]).getD v "" == (l ++ [x]).getD l.length "")) then
        _ ++ [(l ++ [x]).getD l.length ""] else _) = _
  rw [hlast, any_getD_append l x x l.length (le_refl _)]
  by_cases hx : x ∈ l
  · rw [(any_getD_eq_true l x).mpr hx, if_pos hx]
    rfl
  · have h : (List.range l.length).any (fun v => l.getD v "" == x) = false := by
      cases h : (List.range l.length).any (fun v => l.getD v "" == x)
      · rfl
      · exact absurd ((any_getD_eq_true l x).mp h) hx
    rw [h, if_neg hx]
    rfl

theorem removeDuplicates_eq_dedup (xs : List String) :
    removeDuplicates xs = (xs.reverse.dedup).reverse := by
  induction xs using List.reverseRecOn with
  | nil => rfl
  | append_singleton l x ih =>
    rw [removeDuplicates_snoc, List.reverse_append, List.reverse_singleton, List.singleton_append]
    by_cases hx : x ∈ l
    · rw [if_pos hx, List.dedup_cons_of_mem (List.mem_reverse.mpr hx), ih]
    · rw [if_neg hx, List.dedup_cons_of_not_mem (fun h => hx (List.mem_reverse.mp h)), ih]
      simp

/-! ## The loop that starts the workers -/

theorem uintSize_pos : 0 < uintSize := by
  unfold uintSize
  norm_num

theorem launchLoop_never (fuel : Nat) :
    ∀ d n, d < uintSize → launchLoop fuel d (uintSize - 1) n = none := by
  induction fuel with
  | zero => intro d n _; rfl
  | succ fuel ih =>
    intro d n hd
    have hle : d ≤ uintSize - 1 := by omega
    simp only [launchLoop, hle, if_true]
    exact ih _ _ (Nat.mod_lt _ uintSize_pos)

theorem launchLoop_ends (concurrency : Nat) (hc : concurrency < uintSize - 1) :
    ∀ k fuel d n, concurrency + 1 - d = k → d ≤ concurrency + 1 → k < fuel →
      launchLoop fuel d concurrency n = some (n + k) := by
  intro k
  induction k with
  | zero =>
    intro fuel d n hk hd hf
    obtain ⟨fuel, rfl⟩ : ∃ m, fuel = m + 1 := ⟨fuel - 1, by omega⟩
    have hnle : ¬ d ≤ concurrency := by omega
    simp only [launchLoop, hnle, if_false, Nat.add_zero]
  | succ k ih =>
    intro fuel d n hk hd hf
    obtain ⟨fuel, rfl⟩ : ∃ m, fuel = m + 1 := ⟨fuel - 1, by omega⟩
    have hle : d ≤ concurrency := by omega
    have hmod : (d + 1) % uintSize = d + 1 := Nat.mod_eq_of_lt (by omega)
    simp only [launchLoop, hle, if_true, hmod]
    rw [ih fuel (d + 1) (n + 1) (by omega) (by omega) (by omega)]
    congr 1
    omega

/-- The loop that starts the workers ends with `concurrency` workers, except at the
largest `uint`, where it never ends. -/
theorem launched_eq (concurrency : Nat) :
    launched concurrency =
      if concurrency % uintSize = uintSize - 1 then none else some (concurrency % uintSize) := by
  unfold launched
  have hlt : concurrency % uintSize < uintSize := Nat.mod_lt _ uintSize_pos
  by_cases h : concurrency % uintSize = uintSize - 1
  · rw [if_pos h, h]
    exact launchLoop_never _ 1 0 (by unfold uintSize; decide)
  · rw [if_neg h]
    have := launchLoop_ends (concurrency % uintSize) (by omega) (concurrency % uintSize)
      uintSize 1 0 (by omega) (by omega) hlt
    rw [this, Nat.zero_add]

theorem example_launched : launched exampleConfig.concurrency = some 20 := by
  rw [launched_eq]
  unfold uintSize
  decide

/-! ## The worker pools -/

theorem resolvStep_ok (w : World) (c : Config) (dom : String) (t : DomIp) (evs : List Event)
    (h : resolvStep w c dom = Except.ok (t, evs)) : t.Dom = dom ∧ t.Body = "" := by
  unfold resolvStep at h
  simp only at h
  split at h
  · cases h; exact ⟨rfl, rfl⟩
  · split at h
    · cases h
    · split at h
      · cases h; exact ⟨rfl, rfl⟩
      · split at h
        · cases h
        · cases h; exact ⟨rfl, rfl⟩

theorem resolv_ok (w : World) (c : Config) :
    ∀ (doms : List String) (targets : List DomIp) (log : List Event),
      resolv w c doms = Except.ok (targets, log) →
      targets.map DomIp.Dom = doms ∧
        ∀ t ∈ targets, ∃ evs, resolvStep w c t.Dom = Except.ok (t, evs) := by
  intro doms
  induction doms with
  | nil =>
    intro targets log h
    simp only [resolv] at h
    cases h
    simp
  | cons dom jobs ih =>
    intro targets log h
    simp only [resolv] at h
    cases hstep : resolvStep w c dom with
    | error e => rw [hstep] at h; cases h
    | ok p =>
      obtain ⟨t, evs⟩ := p
      rw [hstep] at h
      simp only at h
      cases hrest : resolv w c jobs with
      | error e => rw [hrest] at h; cases h
      | ok q =>
        obtain ⟨results, log1⟩ := q
        rw [hrest] at h
        simp only at h
        cases h
        obtain ⟨hmap, hall⟩ := ih results log1 hrest
        have hd := (resolvStep_ok w c dom t evs hstep).1
        refine ⟨by simp [hmap, hd], ?_⟩
        intro t1 ht1
        rcases List.mem_cons.mp ht1 with rfl | ht1
        · exact ⟨evs, by rw [hd]; exact hstep⟩
        · exact hall t1 ht1

theorem resolv_total (w : World) (c : Config) :
    ∀ doms : List String, (∀ d ∈ doms, ∃ p, resolvStep w c d = Except.ok p) →
      ∃ q, resolv w c doms = Except.ok q := by
  intro doms
  induction doms with
  | nil => intro _; exact ⟨_, rfl⟩
  | cons dom jobs ih =>
    intro h
    obtain ⟨p, hp⟩ := h dom (List.mem_cons_self _ _)
    obtain ⟨q, hq⟩ := ih (fun d hd => h d (List.mem_cons_of_mem _ hd))
    exact ⟨(p.1 :: q.1, p.2 ++ q.2), by simp only [resolv, hp, hq]⟩

theorem httpReq_ok (w : World) (c : Config) (pass : Nat) (t t1 : DomIp) (e : Option String)
    (h : httpReq w c pass t = Except.ok (t1, e)) : t1.Dom = t.Dom ∧ t1.Ip = t.Ip := by
  unfold httpReq at h
  simp only at h
  split at h
  · cases h
  · split at h
    · cases h; exact ⟨rfl, rfl⟩
    · split at h
      · cases h
      · split at h
        · cases h; split <;> exact ⟨rfl, rfl⟩
        · cases h; split <;> exact ⟨rfl, rfl⟩

theorem failedCheck_some (w : World) (c : Config) (pass : Nat) (t t1 : DomIp)
    (h : failedCheck w c pass t = some t1) : t1.Dom = t.Dom ∧ t1.Ip = t.Ip := by
  unfold failedCheck at h
  split at h
  · rename_i d e heq
    cases h
    exact httpReq_ok w c pass t _ _ heq
  · cases h

theorem resParse_ok (w : World) (c : Config) (pass : Nat) (dnsClosed : Bool) :
    ∀ (doms : List DomIp) (s s1 : Chans), resParse w c pass dnsClosed doms s = Except.ok s1 →
      s1.dnsErrors = s.dnsErrors ++ (doms.filter (fun t => t.Ip.isNone)).map DomIp.Dom ∧
        s1.httpErrors =
          s.httpErrors ++ (doms.filter (fun t => t.Ip.isSome)).filterMap (failedCheck w c pass) ∧
        s1.checked = s.checked ++ doms.filter (fun t => t.Ip.isSome) ∧
        (dnsClosed = true → ∀ t ∈ doms, t.Ip.isSome = true) := by
  intro doms
  induction doms with
  | nil =>
    intro s s1 h
    simp only [resParse] at h
    cases h
    simp
  | cons t doms ih =>
    intro s s1 h
    simp only [resParse] at h
    cases hstep : resParseStep w c pass dnsClosed s t with
    | error e => rw [hstep] at h; cases h
    | ok s2 =>
      rw [hstep] at h
      simp only at h
      obtain ⟨h1, h2, h3, h4⟩ := ih s2 s1 h
      unfold resParseStep at hstep
      cases hip : t.Ip with
      | none =>
        rw [hip] at hstep
        simp only at hstep
        cases hcl : dnsClosed with
        | true => rw [hcl] at hstep; simp at hstep
        | false =>
          rw [hcl] at hstep
          simp only [Bool.false_eq_true, if_false] at hstep
          cases hstep
          refine ⟨?_, ?_, ?_, ?_⟩
          · rw [h1]; simp [hip]
          · rw [h2]; simp [hip]
          · rw [h3]; simp [hip]
          · intro hc; cases hc
      | some ip =>
        rw [hip] at hstep
        simp only at hstep
        cases hreq : httpReq w c pass t with
        | error e => rw [hreq] at hstep; cases hstep
        | ok p =>
          obtain ⟨t1, err⟩ := p
          rw [hreq] at hstep
          simp only at hstep
          have hmem : dnsClosed = true → ∀ u ∈ t :: doms, u.Ip.isSome = true := by
            intro hc u hu
            rcases List.mem_cons.mp hu with rfl | hu
            · simp [hip]
            · exact h4 hc u hu
          cases err with
          | some e =>
            simp only at hstep
            cases hstep
            have hf : failedCheck w c pass t = some t1 := by
              unfold failedCheck
              rw [hreq]
            refine ⟨?_, ?_, ?_, hmem⟩
            · rw [h1]; simp [hip]
            · rw [h2]; simp [hip, hf]
            · rw [h3]; simp [hip]
          | none =>
            simp only at hstep
            cases hstep
            have hf : failedCheck w c pass t = none := by
              unfold failedCheck
              rw [hreq]
            refine ⟨?_, ?_, ?_, hmem⟩
            · rw [h1]; simp [hip]
            · rw [h2]; simp [hip, hf]
            · rw [h3]; simp [hip]

theorem resParse_total (w : World) (c : Config) (pass : Nat) (dnsClosed : Bool) :
    ∀ (doms : List DomIp) (s : Chans),
      (∀ t ∈ doms, ∃ p, httpReq w c pass t = Except.ok p) →
      (dnsClosed = true → ∀ t ∈ doms, t.Ip.isSome = true) →
      ∃ s1, resParse w c pass dnsClosed doms s = Except.ok s1 := by
  intro doms
  induction doms with
  | nil => intro s _ _; exact ⟨s, rfl⟩
  | cons t doms ih =>
    intro s hreq hcl
    have hstep : ∃ s2, resParseStep w c pass dnsClosed s t = Except.ok s2 := by
      unfold resParseStep
      cases hip : t.Ip with
      | none =>
        cases hc : dnsClosed with
        | true =>
          have := hcl hc t (List.mem_cons_self _ _)
          rw [hip] at this
          cases this
        | false =>
          exact ⟨{ s with dnsErrors := s.dnsErrors ++ [t.Dom] }, by simp⟩
      | some ip =>
        obtain ⟨⟨t1, err⟩, hp⟩ := hreq t (List.mem_cons_self _ _)
        simp only [hp]
        cases err with
        | some e => exact ⟨_, rfl⟩
        | none => exact ⟨_, rfl⟩
    obtain ⟨s2, hs2⟩ := hstep
    obtain ⟨s1, hs1⟩ := ih s2 (fun u hu => hreq u (List.mem_cons_of_mem _ hu))
      (fun hc u hu => hcl hc u (List.mem_cons_of_mem _ hu))
    exact ⟨s1, by simp only [resParse, hs2, hs1]⟩

theorem reqGo_ok (w : World) (c : Config) (pass : Nat) (dnsClosed : Bool) (doms : List DomIp)
    (s s1 : Chans) (hc : launched c.concurrency = some 0 → doms = [])
    (h : reqGo w c pass dnsClosed doms s = Except.ok s1) :
    s1.dnsErrors = s.dnsErrors ++ (doms.filter (fun t => t.Ip.isNone)).map DomIp.Dom ∧
      s1.httpErrors =
        s.httpErrors ++ (doms.filter (fun t => t.Ip.isSome)).filterMap (failedCheck w c pass) ∧
      s1.checked = s.checked ++ doms.filter (fun t => t.Ip.isSome) ∧
      (dnsClosed = true → ∀ t ∈ doms, t.Ip.isSome = true) := by
  unfold reqGo at h
  cases hl : launched c.concurrency with
  | none => rw [hl] at h; cases h
  | some n =>
    rw [hl] at h
    simp only at h
    by_cases h0 : n = 0
    · rw [if_pos h0] at h
      cases h
      subst h0
      have hd := hc hl
      subst hd
      simp
    · rw [if_neg h0] at h
      exact resParse_ok w c pass dnsClosed doms s s1 h

theorem reqGo_workers (w : World) (c : Config) (pass : Nat) (dnsClosed : Bool)
    (doms : List DomIp) (s : Chans) (n : Nat) (hl : launched c.concurrency = some n)
    (hn : n ≠ 0) :
    reqGo w c pass dnsClosed doms s = resParse w c pass dnsClosed doms s := by
  unfold reqGo
  rw [hl]
  simp only [hn, if_false]

theorem filterMap_dom_sublist (g : DomIp → Option DomIp)
    (hg : ∀ t t1, g t = some t1 → t1.Dom = t.Dom) (l : List DomIp) :
    ((l.filterMap g).map DomIp.Dom).Sublist (l.map DomIp.Dom) := by
  induction l with
  | nil => simp
  | cons t l ih =>
    cases hgt : g t with
    | none =>
      rw [List.filterMap_cons_none hgt, List.map_cons]
      exact ih.cons _
    | some t1 =>
      rw [List.filterMap_cons_some hgt, List.map_cons, List.map_cons, hg t t1 hgt]
      exact ih.cons₂ _

/-- What a finished run of `pipeline` leaves, in terms of the targets of pass 1. -/
theorem pipeline_ok (w : World) (c : Config) (sched : Sched) (args : List String) (f : Final)
    (h : pipeline w c sched args = Except.ok f) :
    ∃ targets, resolv w c (removeDuplicates args) = Except.ok (targets, f.exchanges) ∧
      f.dnsErrors.Perm ((targets.filter (fun t => t.Ip.isNone)).map DomIp.Dom) ∧
      f.httpErr1Pass.Perm
        ((targets.filter (fun t => t.Ip.isSome)).filterMap (failedCheck w c 1)) ∧
      f.checked1 = targets.filter (fun t => t.Ip.isSome) ∧
      (f.secondPass = true ↔ f.httpErr1Pass.length ≠ 0 ∧ f.httpErr1Pass.length ≤ 10) ∧
      (f.secondPass = false → f.httpErr2Pass = f.httpErr1Pass ∧ f.checked2 = []) ∧
      (f.secondPass = true →
        f.httpErr2Pass.Perm (f.httpErr1Pass.filterMap (failedCheck w c 2)) ∧
          f.checked2 = f.httpErr1Pass) := by
  unfold pipeline at h
  simp only at h
  split at h
  · cases h
  · rename_i n hl
    split at h
    · cases h
    · rename_i hdead
      have hconc : launched c.concurrency = some 0 → removeDuplicates args = [] := by
        intro h0
        rw [hl] at h0
        cases h0
        by_contra hne
        exact hdead ⟨rfl, hne⟩
      split at h
      · cases h
      · rename_i targets exchanges hres
        have htd := (resolv_ok w c _ targets exchanges hres).1
        have hconc1 : launched c.concurrency = some 0 → targets = [] := by
          intro h0
          rw [hconc h0] at htd
          exact List.map_eq_nil_iff.mp htd
        split at h
        · cases h
        · rename_i s1 hs1
          obtain ⟨hd1, hh1, hck1, _⟩ := reqGo_ok w c 1 false targets _ s1 hconc1 hs1
          simp only [List.nil_append] at hd1 hh1 hck1
          have hperm1 : (sched.httpOrder 1 s1.httpErrors).Perm
              ((targets.filter (fun t => t.Ip.isSome)).filterMap (failedCheck w c 1)) := by
            rw [← hh1]
            exact sched.httpOrder_perm 1 _
          have hpermd : (sched.dnsOrder s1.dnsErrors).Perm
              ((targets.filter (fun t => t.Ip.isNone)).map DomIp.Dom) := by
            rw [← hd1]
            exact sched.dnsOrder_perm _
          split at h
          · rename_i hsecond
            split at h
            · cases h
            · rename_i s2 hs2
              cases h
              have hconc2 : launched c.concurrency = some 0 →
                  sched.httpOrder 1 s1.httpErrors = [] := by
                intro h0
                exfalso
                have ht := hconc1 h0
                subst ht
                have := hperm1.length_eq
                simp at this
                exact hsecond.1 (by simpa using this)
              obtain ⟨hd2, hh2, hck2, hsome⟩ := reqGo_ok w c 2 true _ _ s2 hconc2 hs2
              have hall : (sched.httpOrder 1 s1.httpErrors).filter (fun t => t.Ip.isSome) =
                  sched.httpOrder 1 s1.httpErrors :=
                List.filter_eq_self.mpr (fun t ht => hsome rfl t ht)
              have hnone :
                  (sched.httpOrder 1 s1.httpErrors).filter (fun t => t.Ip.isNone) = [] := by
                apply List.filter_eq_nil_iff.mpr
                intro t ht
                have := hsome rfl t ht
                cases hip : t.Ip with
                | none => rw [hip] at this; cases this
                | some ip => simp
              simp only [List.nil_append, hall, hnone, List.map_nil, List.append_nil]
                at hd2 hh2 hck2
              refine ⟨targets, hres, ?_, hperm1, hck1, ?_, ?_, ?_⟩
              · show s2.dnsErrors.Perm _
                rw [hd2]
                exact hpermd
              · exact ⟨fun _ => hsecond, fun _ => rfl⟩
              · intro hf
                cases hf
              · intro _
                refine ⟨?_, hck2⟩
                show (sched.httpOrder 2 s2.httpErrors).Perm _
                rw [← hh2]
                exact sched.httpOrder_perm 2 _
          · rename_i hsecond
            cases h
            refine ⟨targets, hres, hpermd, hperm1, hck1, ?_, ?_, ?_⟩
            · exact ⟨fun hf => (by cases hf), fun hc => absurd hc hsecond⟩
            · intro _
              exact ⟨rfl, rfl⟩
            · intro hf
              cases hf

theorem failedCheck_eq_some_iff (w : World) (c : Config) (pass : Nat) (t t1 : DomIp) :
    failedCheck w c pass t = some t1 ↔ ∃ e, httpReq w c pass t = Except.ok (t1, some e) := by
  unfold failedCheck
  constructor
  · intro h
    split at h
    · rename_i d e heq
      cases h
      exact ⟨e, heq⟩
    · cases h
  · rintro ⟨e, he⟩
    rw [he]

theorem pipeline_total (w : World) (c : Config) (sched : Sched) (args : List String)
    (hc : ∃ n, launched c.concurrency = some n ∧ n ≠ 0)
    (hres : ∀ d ∈ removeDuplicates args, ∃ p, resolvStep w c d = Except.ok p)
    (hhttp : ∀ pass t, ∃ p, httpReq w c pass t = Except.ok p) :
    ∃ f, pipeline w c sched args = Except.ok f := by
  obtain ⟨n, hl, hn⟩ := hc
  obtain ⟨⟨targets, exchanges⟩, hq⟩ := resolv_total w c _ hres
  obtain ⟨s1, hs1⟩ := resParse_total w c 1 false targets
    { dnsErrors := [], httpErrors := [], checked := [] } (fun t _ => hhttp 1 t)
    (fun hf => by cases hf)
  have hr1 : reqGo w c 1 false targets { dnsErrors := [], httpErrors := [], checked := [] } =
      Except.ok s1 := by
    rw [reqGo_workers w c 1 false targets _ n hl hn]
    exact hs1
  obtain ⟨_, hh1, _, _⟩ := resParse_ok w c 1 false targets _ s1 hs1
  simp only [List.nil_append] at hh1
  have hsome : ∀ t ∈ sched.httpOrder 1 s1.httpErrors, t.Ip.isSome = true := by
    intro t ht
    have ht1 := (sched.httpOrder_perm 1 s1.httpErrors).subset ht
    rw [hh1] at ht1
    obtain ⟨t0, ht0, hf⟩ := List.mem_filterMap.mp ht1
    have hip := (failedCheck_some w c 1 t0 t hf).2
    have := (List.mem_filter.mp ht0).2
    rw [hip]
    exact this
  unfold pipeline
  simp only [hl]
  rw [if_neg (fun hd => hn hd.1), hq]
  simp only [hr1]
  by_cases hsecond : (sched.httpOrder 1 s1.httpErrors).length ≠ 0 ∧
      (sched.httpOrder 1 s1.httpErrors).length ≤ 10
  · rw [if_pos hsecond]
    obtain ⟨s2, hs2⟩ := resParse_total w c 2 true (sched.httpOrder 1 s1.httpErrors)
      { dnsErrors := sched.dnsOrder s1.dnsErrors, httpErrors := [], checked := [] }
      (fun t _ => hhttp 2 t) (fun _ => hsome)
    have hr2 : reqGo w c 2 true (sched.httpOrder 1 s1.httpErrors)
        { dnsErrors := sched.dnsOrder s1.dnsErrors, httpErrors := [], checked := [] } =
        Except.ok s2 := by
      rw [reqGo_workers w c 2 true _ _ n hl hn]
      exact hs2
    simp only [hr2]
    exact ⟨_, rfl⟩
  · rw [if_neg hsecond]
    exact ⟨_, rfl⟩

theorem pipeline_never_ends (w : World) (c : Config) (sched : Sched) (args : List String)
    (hc : c.concurrency % uintSize = uintSize - 1) :
    pipeline w c sched args = Except.error "the loop that starts the workers never ends" := by
  unfold pipeline
  simp only [launched_eq, hc, if_true]

theorem final_origin (w : World) (c : Config) (sched : Sched) (args : List String) (f : Final)
    (h : pipeline w c sched args = Except.ok f) :
    ∃ targets : List DomIp, targets.map DomIp.Dom = removeDuplicates args ∧
      (∀ t ∈ targets, ∃ evs, resolvStep w c t.Dom = Except.ok (t, evs)) ∧
      (∀ d, d ∈ f.dnsErrors ↔ ∃ t ∈ targets, t.Ip = none ∧ t.Dom = d) ∧
      (∀ t ∈ f.httpErr1Pass, ∃ t0 ∈ targets, t0.Ip.isSome = true ∧
        failedCheck w c 1 t0 = some t) ∧
      (∀ t ∈ f.httpErr2Pass, ∃ t1 ∈ f.httpErr1Pass, t1.Dom = t.Dom ∧ t1.Ip = t.Ip) ∧
      (f.httpErr2Pass.map DomIp.Dom).Subperm
        ((targets.filter (fun t => t.Ip.isSome)).map DomIp.Dom) ∧
      f.dnsErrors.Perm ((targets.filter (fun t => t.Ip.isNone)).map DomIp.Dom) := by
  obtain ⟨targets, hres, hd, hh1, _, _, hskip, hrun⟩ := pipeline_ok w c sched args f h
  obtain ⟨hmap, hall⟩ := resolv_ok w c _ targets _ hres
  have hsub1 : (f.httpErr1Pass.map DomIp.Dom).Subperm
      ((targets.filter (fun t => t.Ip.isSome)).map DomIp.Dom) :=
    (hh1.map DomIp.Dom).subperm.trans
      (filterMap_dom_sublist _ (fun t t1 ht => (failedCheck_some w c 1 t t1 ht).1) _).subperm
  refine ⟨targets, hmap, hall, ?_, ?_, ?_, ?_, hd⟩
  · intro d
    rw [hd.mem_iff, List.mem_map]
    constructor
    · rintro ⟨t, ht, rfl⟩
      obtain ⟨ht1, ht2⟩ := List.mem_filter.mp ht
      exact ⟨t, ht1, Option.isNone_iff_eq_none.mp ht2, rfl⟩
    · rintro ⟨t, ht, hip, rfl⟩
      exact ⟨t, List.mem_filter.mpr ⟨ht, by simp [hip]⟩, rfl⟩
  · intro t ht
    obtain ⟨t0, ht0, hf⟩ := List.mem_filterMap.mp (hh1.subset ht)
    obtain ⟨ht1, ht2⟩ := List.mem_filter.mp ht0
    exact ⟨t0, ht1, ht2, hf⟩
  · intro t ht
    cases hsp : f.secondPass with
    | false =>
      rw [(hskip hsp).1] at ht
      exact ⟨t, ht, rfl, rfl⟩
    | true =>
      obtain ⟨t1, ht1, hf⟩ := List.mem_filterMap.mp ((hrun hsp).1.subset ht)
      obtain ⟨h1, h2⟩ := failedCheck_some w c 2 t1 t hf
      exact ⟨t1, ht1, h1.symm, h2.symm⟩
  · cases hsp : f.secondPass with
    | false =>
      rw [(hskip hsp).1]
      exact hsub1
    | true =>
      exact (((hrun hsp).1.map DomIp.Dom).subperm.trans
        (filterMap_dom_sublist _
          (fun t t1 ht => (failedCheck_some w c 2 t t1 ht).1) _).subperm).trans hsub1

theorem final_http_iff (w : World) (c : Config) (sched : Sched) (args : List String)
    (f : Final) (h : pipeline w c sched args = Except.ok f) :
    (∀ t1, t1 ∈ f.httpErr1Pass ↔
        ∃ t0 evs, t0.Dom ∈ removeDuplicates args ∧
          resolvStep w c t0.Dom = Except.ok (t0, evs) ∧ t0.Ip ≠ none ∧
          failedCheck w c 1 t0 = some t1) ∧
      (∀ t, t ∈ f.httpErr2Pass ↔
        ∃ t1 ∈ f.httpErr1Pass,
          if f.secondPass = true then failedCheck w c 2 t1 = some t else t1 = t) := by
  obtain ⟨targets, hres, _, hh1, _, _, hskip, hrun⟩ := pipeline_ok w c sched args f h
  obtain ⟨hmap, hall⟩ := resolv_ok w c _ targets _ hres
  refine ⟨?_, ?_⟩
  · intro t1
    rw [hh1.mem_iff, List.mem_filterMap]
    constructor
    · rintro ⟨t0, ht0, hf⟩
      obtain ⟨hm, hs⟩ := List.mem_filter.mp ht0
      obtain ⟨evs, hev⟩ := hall t0 hm
      refine ⟨t0, evs, ?_, hev, ?_, hf⟩
      · rw [← hmap]
        exact List.mem_map.mpr ⟨t0, hm, rfl⟩
      · intro hnone
        rw [hnone] at hs
        cases hs
    · rintro ⟨t0, evs, hd, hev, hip, hf⟩
      rw [← hmap] at hd
      obtain ⟨t, ht, hdom⟩ := List.mem_map.mp hd
      obtain ⟨evs1, hev1⟩ := hall t ht
      rw [hdom, hev] at hev1
      cases hev1
      refine ⟨t0, List.mem_filter.mpr ⟨ht, ?_⟩, hf⟩
      cases hi : t0.Ip with
      | none => exact absurd hi hip
      | some ip => rfl
  · intro t
    cases hsp : f.secondPass with
    | false =>
      rw [(hskip hsp).1]
      simp
    | true =>
      rw [(hrun hsp).1.mem_iff, List.mem_filterMap]
      simp

/-! ## Settled claims: resolver and resolution worker -/

/-- C4: on a resolver with `RetryTimes = k ≥ 0` and a non-empty server list, when every
exchange for the host ends in an i/o timeout, SERVFAIL or REFUSED, `LookupHost` returns an
error after exactly `k + 1` exchanges (so at most `k + 1`); when every exchange answers
SERVFAIL the error is the text of the SERVFAIL response code. -/
theorem LookupHost_retry_bound (w : World) (r : DnsResolver) (host : String) (k : Nat)
    (hk : r.RetryTimes = (k : Int)) (hs : r.Servers ≠ [])
    (ht : ∀ s a, Transient (w.Exchange host s a)) :
    ∃ e evs, LookupHost w r host = Except.ok (([], some e), evs) ∧
      evs.length = k + 1 ∧ evs.length ≤ k + 1 ∧
      ((∀ s a, Answers (w.Exchange host s a) RcodeServerFailure) →
        e = w.RcodeToString RcodeServerFailure) := by
  obtain ⟨e, evs, h1, h2, h3⟩ :=
    lookupHost_transient w r host hs ht k r.RetryTimes 0 (by rw [hk]; rfl)
  exact ⟨e, evs, h1, h2, le_of_eq h2, h3⟩

theorem LookupHost_retry_bound_witness :
    (exampleResolver.RetryTimes = ((4 : Nat) : Int) ∧ exampleResolver.Servers ≠ [] ∧
      ∀ s a, Transient ((exampleWorld 2 [] 200).Exchange "example.org" s a)) ∧
    ∃ e evs, LookupHost (exampleWorld 2 [] 200) exampleResolver "example.org" =
        Except.ok (([], some e), evs) ∧
      evs.length = 4 + 1 ∧ evs.length ≤ 4 + 1 ∧
      ((∀ s a, Answers ((exampleWorld 2 [] 200).Exchange "example.org" s a) RcodeServerFailure) →
        e = (exampleWorld 2 [] 200).RcodeToString RcodeServerFailure) :=
  ⟨⟨rfl, by decide, fun _ _ => Or.inr (Or.inl ⟨rfl, _, rfl, rfl⟩)⟩,
    LookupHost_retry_bound (exampleWorld 2 [] 200) exampleResolver "example.org" 4 rfl
      (by decide) (fun _ _ => Or.inr (Or.inl ⟨rfl, _, rfl, rfl⟩))⟩

/-- C5: whatever the retry budget, when the first exchange of `LookupHost` returns without
transport error a response whose code is neither success nor SERVFAIL nor REFUSED,
`LookupHost` returns the text of that code as its error after exactly one exchange. -/
theorem LookupHost_permanent (w : World) (r : DnsResolver) (host : String) (m : Msg)
    (hs : r.Servers ≠ [])
    (hx : w.Exchange host (pickServer w r host 0) 0 = { msg := some m, err := none })
    (h0 : m.Rcode ≠ RcodeSuccess) (h2 : m.Rcode ≠ RcodeServerFailure)
    (h5 : m.Rcode ≠ RcodeRefused) :
    LookupHost w r host =
      Except.ok (([], some (w.RcodeToString m.Rcode)),
        [Event.exchange host (pickServer w r host 0)]) := by
  have hlen : ¬ r.Servers.length = 0 := fun h => hs (List.length_eq_zero.mp h)
  unfold LookupHost
  rw [lookupHost]
  simp [hlen, hx, h0, h2, h5]

theorem LookupHost_permanent_witness :
    LookupHost (exampleWorld 3 [] 200) exampleResolver "bad.invalid" =
      Except.ok (([], some "NXDOMAIN"), [Event.exchange "bad.invalid" "8.8.8.8:53"]) :=
  LookupHost_permanent (exampleWorld 3 [] 200) exampleResolver "bad.invalid"
    { Rcode := 3, Answer := [] } (by decide) rfl (by decide) (by decide) (by decide)

theorem lookupHost_success (w : World) (r : DnsResolver) (host : String) (m : Msg)
    (triesLeft : Int) (attempt : Nat) (hs : r.Servers ≠ [])
    (hx : w.Exchange host (pickServer w r host attempt) attempt = { msg := some m, err := none })
    (h0 : m.Rcode = RcodeSuccess) :
    lookupHost w r host triesLeft attempt =
      Except.ok ((m.Answer.filterMap aRecord, none),
        [Event.exchange host (pickServer w r host attempt)]) := by
  have hlen : ¬ r.Servers.length = 0 := fun h => hs (List.length_eq_zero.mp h)
  rw [lookupHost]
  simp [hlen, hx, h0, RcodeSuccess, RcodeServerFailure, RcodeRefused]

theorem resolvStep_empty_answer (w : World) (c : Config) (dom : String) (m : Msg)
    (hlit : w.ParseIP dom = none) (hs : c.resolver.Servers ≠ [])
    (hx : w.Exchange dom (pickServer w c.resolver dom 0) 0 = { msg := some m, err := none })
    (h0 : m.Rcode = RcodeSuccess) (hA : m.Answer.filterMap aRecord = []) :
    LookupHost w c.resolver dom =
        Except.ok (([], none), [Event.exchange dom (pickServer w c.resolver dom 0)]) ∧
      resolvStep w c dom = Except.error "index out of range [0] with length 0" := by
  have h := lookupHost_success w c.resolver dom m c.resolver.RetryTimes 0 hs hx h0
  rw [hA] at h
  refine ⟨h, ?_⟩
  unfold resolvStep
  simp only [hlit]
  unfold LookupHost
  rw [h]

/-- C6: for the name `ipv6only.example`, not an IP literal, whose query succeeds with an
answer holding a single AAAA record, `LookupHost` returns an empty address list with a
nil error, the worker panics on `ips[0]` and the run ends without a report: the name does
not reach the dns-failure set. -/
theorem resolv_empty_answer_panics :
    LookupHost (exampleWorld 0 [RR.other 28] 200) exampleResolver "ipv6only.example" =
        Except.ok (([], none), [Event.exchange "ipv6only.example" "8.8.8.8:53"]) ∧
      resolvStep (exampleWorld 0 [RR.other 28] 200) exampleConfig "ipv6only.example" =
        Except.error "index out of range [0] with length 0" ∧
      pipeline (exampleWorld 0 [RR.other 28] 200) exampleConfig fifo ["ipv6only.example"] =
        Except.error "index out of range [0] with length 0" := by
  have h := resolvStep_empty_answer (exampleWorld 0 [RR.other 28] 200) exampleConfig
    "ipv6only.example" { Rcode := 0, Answer := [RR.other 28] } (by decide) (by decide) rfl rfl rfl
  refine ⟨h.1, h.2, ?_⟩
  have hd : removeDuplicates ["ipv6only.example"] = ["ipv6only.example"] := by decide
  unfold pipeline
  simp only [hd, example_launched]
  rw [if_neg (by decide)]
  simp only [resolv, h.2]

/-- C7: for a name that `net.ParseIP` accepts, the worker emits the target with that name
and the parsed address and performs no DNS exchange for it; over a job list the name adds
its target and no exchange to what the remaining jobs produce. -/
theorem resolv_literal (w : World) (c : Config) (dom : String) (ip : List Nat)
    (h : w.ParseIP dom = some ip) :
    resolvStep w c dom = Except.ok ({ Dom := dom, Ip := some ip, Body := "" }, []) ∧
      ∀ jobs results log, resolv w c jobs = Except.ok (results, log) →
        resolv w c (dom :: jobs) =
          Except.ok ({ Dom := dom, Ip := some ip, Body := "" } :: results, log) := by
  have hstep : resolvStep w c dom = Except.ok ({ Dom := dom, Ip := some ip, Body := "" }, []) := by
    unfold resolvStep
    simp only [h]
  refine ⟨hstep, ?_⟩
  intro jobs results log hj
  simp only [resolv, hstep, hj, List.nil_append]

theorem resolv_literal_witness :
    resolvStep (exampleWorld 2 [] 200) exampleConfig "10.0.0.1" =
        Except.ok ({ Dom := "10.0.0.1", Ip := some [10, 0, 0, 1], Body := "" }, []) ∧
      ∀ jobs results log,
        resolv (exampleWorld 2 [] 200) exampleConfig jobs = Except.ok (results, log) →
        resolv (exampleWorld 2 [] 200) exampleConfig ("10.0.0.1" :: jobs) =
          Except.ok ({ Dom := "10.0.0.1", Ip := some [10, 0, 0, 1], Body := "" } :: results, log) :=
  resolv_literal (exampleWorld 2 [] 200) exampleConfig "10.0.0.1" [10, 0, 0, 1] rfl

/-! ## The HTTP check and the report -/

theorem join_foldl_init (l : List String) (init : String) :
    l.foldl (fun r s => r ++ s) init = init ++ l.foldl (fun r s => r ++ s) "" := by
  induction l generalizing init with
  | nil => simp
  | cons a l ih =>
    rw [List.foldl_cons, List.foldl_cons, ih (init ++ a), ih ("" ++ a), String.empty_append,
      String.append_assoc]

theorem foldl_append_str {α : Type} (f : α → String) (l : List α) (init : String) :
    l.foldl (fun o x => o ++ f x) init = init ++ String.join (l.map f) := by
  induction l generalizing init with
  | nil => simp [String.join]
  | cons a l ih =>
    rw [List.foldl_cons, ih, List.map_cons]
    have hj : String.join (f a :: l.map f) = f a ++ String.join (l.map f) := by
      unfold String.join
      rw [List.foldl_cons, String.empty_append]
      exact join_foldl_init _ _
    rw [hj, String.append_assoc]

theorem httpReq_err_withBodies (w : World) (c : Config) (g : String → String) (pass : Nat)
    (domip : DomIp) :
    (httpReq (withBodies w g) c pass domip).map Prod.snd =
      (httpReq w c pass domip).map Prod.snd := by
  unfold httpReq withBodies
  simp only
  cases w.NewRequest "GET" ("http://" ++ w.IPString domip.Ip ++ c.url) with
  | error e => rfl
  | ok req0 =>
    simp only
    cases (w.Do pass { req0 with Host := domip.Dom }).err with
    | some e => rfl
    | none =>
      simp only
      cases (w.Do pass { req0 with Host := domip.Dom }).resp with
      | none => rfl
      | some a =>
        simp only [Option.map_some']
        by_cases h : a.StatusCode = 200
        · simp [h, Except.map]
        · simp [h, Except.map]

/-! ## Settled claims: HTTP check and report -/

/-- C8: `httpReq` returns the nil error exactly when the request could be built, `client.Do`
returned no error and the status code of the response is 200; a transport error is returned
as the failure, any other status gives the failure `Answer != 200`, and rewriting every
response body leaves the returned error unchanged. -/
theorem httpReq_pass_iff (w : World) (c : Config) (pass : Nat) (domip : DomIp) :
    ((∃ d, httpReq w c pass domip = Except.ok (d, none)) ↔
        ∃ req0 a, w.NewRequest "GET" ("http://" ++ w.IPString domip.Ip ++ c.url) = Except.ok req0 ∧
          w.Do pass { req0 with Host := domip.Dom } = { resp := some a, err := none } ∧
          a.StatusCode = 200) ∧
      (∀ req0 e, w.NewRequest "GET" ("http://" ++ w.IPString domip.Ip ++ c.url) = Except.ok req0 →
        (w.Do pass { req0 with Host := domip.Dom }).err = some e →
        httpReq w c pass domip = Except.ok (domip, some e)) ∧
      (∀ req0 a, w.NewRequest "GET" ("http://" ++ w.IPString domip.Ip ++ c.url) = Except.ok req0 →
        w.Do pass { req0 with Host := domip.Dom } = { resp := some a, err := none } →
        a.StatusCode ≠ 200 →
        ∃ d, httpReq w c pass domip = Except.ok (d, some "Answer != 200")) ∧
      (∀ g : String → String,
        (httpReq (withBodies w g) c pass domip).map Prod.snd =
          (httpReq w c pass domip).map Prod.snd) := by
  refine ⟨⟨?_, ?_⟩, ?_, ?_, fun g => httpReq_err_withBodies w c g pass domip⟩
  · rintro ⟨d, hd⟩
    unfold httpReq at hd
    simp only at hd
    cases hreq : w.NewRequest "GET" ("http://" ++ w.IPString domip.Ip ++ c.url) with
    | error e => rw [hreq] at hd; cases hd
    | ok req0 =>
      rw [hreq] at hd
      simp only at hd
      rcases hdo : w.Do pass { req0 with Host := domip.Dom } with ⟨resp, err⟩
      rw [hdo] at hd
      cases err with
      | some e => simp at hd
      | none =>
        cases resp with
        | none => simp at hd
        | some a =>
          by_cases h : a.StatusCode = 200
          · exact ⟨req0, a, rfl, hdo, h⟩
          · simp [h] at hd
  · rintro ⟨req0, a, hreq, hdo, h⟩
    unfold httpReq
    simp only [hreq, hdo, h]
    exact ⟨_, rfl⟩
  · intro req0 e hreq he
    unfold httpReq
    simp only [hreq, he]
  · intro req0 a hreq hdo h
    unfold httpReq
    simp only [hreq, hdo]
    rw [if_pos h]
    exact ⟨_, rfl⟩

theorem httpReq_pass_iff_witness :
    (∃ d, httpReq (exampleWorld 0 [] 200) exampleConfig 1
        { Dom := "example.org", Ip := some [10, 0, 0, 1], Body := "" } = Except.ok (d, none)) ∧
      (∃ d, httpReq (exampleWorld 0 [] 503) exampleConfig 1
        { Dom := "example.org", Ip := some [10, 0, 0, 1], Body := "" } =
          Except.ok (d, some "Answer != 200")) :=
  ⟨(httpReq_pass_iff (exampleWorld 0 [] 200) exampleConfig 1
      { Dom := "example.org", Ip := some [10, 0, 0, 1], Body := "" }).1.mpr
      ⟨_, _, rfl, rfl, rfl⟩,
    (httpReq_pass_iff (exampleWorld 0 [] 503) exampleConfig 1
      { Dom := "example.org", Ip := some [10, 0, 0, 1], Body := "" }).2.2.1
      _ _ rfl rfl (by decide)⟩

/-- C9: the report exits with status 0 exactly when both failure sets are empty, and then
prints the success message; otherwise it exits with status 2 and prints `PHP_CRITICAL: `
followed by each HTTP-failing domain and a space when that set is non-empty, then
`DNS_CRITICAL: ` followed by each DNS-failing domain and a space when that set is
non-empty.  The function `main` prints and exits as the report of the final sets of its
pipeline says. -/
theorem report_spec (dnsErrors : List String) (httpErr2Pass : List DomIp) :
    ((report dnsErrors httpErr2Pass).2 = 0 ↔ dnsErrors = [] ∧ httpErr2Pass = []) ∧
      (dnsErrors = [] ∧ httpErr2Pass = [] →
        report dnsErrors httpErr2Pass = ("All domains passed PHP check\n", 0)) ∧
      (¬ (dnsErrors = [] ∧ httpErr2Pass = []) →
        report dnsErrors httpErr2Pass =
          ((if httpErr2Pass = [] then ""
              else "PHP_CRITICAL: " ++ String.join (httpErr2Pass.map (fun t => t.Dom ++ " "))) ++
            (if dnsErrors = [] then ""
              else "DNS_CRITICAL: " ++ String.join (dnsErrors.map (fun d => d ++ " "))) ++
            "\n", 2)) ∧
      (∀ (w : World) (c : Config) (sched : Sched) (args : List String),
        main w c sched args =
          (pipeline w c sched args).map (fun f => report f.dnsErrors f.httpErr2Pass)) := by
  have hmain : ∀ (w : World) (c : Config) (sched : Sched) (args : List String),
      main w c sched args =
        (pipeline w c sched args).map (fun f => report f.dnsErrors f.httpErr2Pass) := by
    intro w c sched args
    unfold main
    cases pipeline w c sched args <;> rfl
  cases dnsErrors with
  | nil =>
    cases httpErr2Pass with
    | nil => exact ⟨by simp [report], by simp [report], by simp, hmain⟩
    | cons t ts =>
      refine ⟨?_, ?_, ?_, hmain⟩
      all_goals simp only [report, foldl_append_str]
      all_goals simp
  | cons d ds =>
    cases httpErr2Pass with
    | nil =>
      refine ⟨?_, ?_, ?_, hmain⟩
      all_goals simp only [report, foldl_append_str]
      all_goals simp
    | cons t ts =>
      refine ⟨?_, ?_, ?_, hmain⟩
      all_goals simp only [report, foldl_append_str]
      all_goals simp [String.append_assoc]

theorem report_spec_witness :
    report [] [] = ("All domains passed PHP check\n", 0) ∧
      report ["bad.invalid"] [{ Dom := "a.example", Ip := some [10, 0, 0, 1], Body := "" }] =
        ("PHP_CRITICAL: a.example DNS_CRITICAL: bad.invalid \n", 2) :=
  ⟨(report_spec [] []).2.1 ⟨rfl, rfl⟩,
    ((report_spec ["bad.invalid"]
      [{ Dom := "a.example", Ip := some [10, 0, 0, 1], Body := "" }]).2.2.1 (by decide)).trans
      (by decide)⟩

/-! ## Settled claims: deduplication -/

/-- C10: `removeDuplicates` keeps an element exactly when no equal string precedes it, in
input order: the result has no repeated element, the same members as the input, is a
subsequence of the input, is the input with later repetitions removed, and applying the
function twice gives the same list as once. -/
theorem removeDuplicates_first_occurrence (xs : List String) :
    (removeDuplicates xs).Nodup ∧
      (∀ x, x ∈ removeDuplicates xs ↔ x ∈ xs) ∧
      (removeDuplicates xs).Sublist xs ∧
      removeDuplicates xs = (xs.reverse.dedup).reverse ∧
      (∀ x, removeDuplicates (xs ++ [x]) =
        if x ∈ xs then removeDuplicates xs else removeDuplicates xs ++ [x]) ∧
      removeDuplicates (removeDuplicates xs) = removeDuplicates xs := by
  refine ⟨?_, ?_, ?_, removeDuplicates_eq_dedup xs, removeDuplicates_snoc xs, ?_⟩
  · rw [removeDuplicates_eq_dedup]
    exact List.nodup_reverse.mpr (List.nodup_dedup _)
  · intro x
    rw [removeDuplicates_eq_dedup]
    simp
  · rw [removeDuplicates_eq_dedup]
    have h := (List.dedup_sublist xs.reverse).reverse
    rwa [List.reverse_reverse] at h
  · rw [removeDuplicates_eq_dedup xs, removeDuplicates_eq_dedup, List.reverse_reverse,
      List.dedup_idem]

/-! ## Two concrete runs -/

theorem example_run_literal :
    pipeline (exampleWorld 0 [] 503) exampleConfig fifo ["10.0.0.1"] =
      Except.ok exampleFinalLiteral := by
  rfl

theorem example_lookup_nxdomain :
    LookupHost (exampleWorld 3 [] 200) exampleResolver "bad.invalid" =
      Except.ok (([], some "NXDOMAIN"), [Event.exchange "bad.invalid" "8.8.8.8:53"]) := by
  unfold LookupHost
  rw [lookupHost]
  rfl

theorem example_run_mixed :
    pipeline (exampleWorld 3 [] 200) exampleConfig fifo ["10.0.0.1", "bad.invalid", "10.0.0.1"] =
      Except.ok exampleFinalMixed := by
  have hd : removeDuplicates ["10.0.0.1", "bad.invalid", "10.0.0.1"] =
      ["10.0.0.1", "bad.invalid"] := by decide
  have h1 : resolvStep (exampleWorld 3 [] 200) exampleConfig "10.0.0.1" =
      Except.ok ({ Dom := "10.0.0.1", Ip := some [10, 0, 0, 1], Body := "" }, []) := rfl
  have h2 : resolvStep (exampleWorld 3 [] 200) exampleConfig "bad.invalid" =
      Except.ok ({ Dom := "bad.invalid", Ip := none, Body := "" },
        [Event.exchange "bad.invalid" "8.8.8.8:53"]) := by
    unfold resolvStep
    have hp : (exampleWorld 3 [] 200).ParseIP "bad.invalid" = none := by decide
    simp only [hp]
    show (match LookupHost (exampleWorld 3 [] 200) exampleResolver "bad.invalid" with
      | Except.error e => _
      | Except.ok ((ips, err), evs) => _) = _
    rw [example_lookup_nxdomain]
  have hr : resolv (exampleWorld 3 [] 200) exampleConfig ["10.0.0.1", "bad.invalid"] =
      Except.ok ([{ Dom := "10.0.0.1", Ip := some [10, 0, 0, 1], Body := "" },
          { Dom := "bad.invalid", Ip := none, Body := "" }],
        [Event.exchange "bad.invalid" "8.8.8.8:53"]) := by
    simp only [resolv, h1, h2]
    rfl
  unfold pipeline
  simp only [hd, example_launched]
  rw [if_neg (by decide), hr]
  rfl

theorem example_lookup_farm (status : Nat → String → Int) :
    LookupHost (farmWorld status) exampleResolver "bad.invalid" =
      Except.ok (([], some "NXDOMAIN"), [Event.exchange "bad.invalid" "8.8.8.8:53"]) := by
  unfold LookupHost
  rw [lookupHost]
  rfl

theorem example_farm_resolves (status : Nat → String → Int) (d : String) :
    ∃ p, resolvStep (farmWorld status) exampleConfig d = Except.ok p := by
  unfold resolvStep
  cases hp : (farmWorld status).ParseIP d with
  | some ip => exact ⟨_, rfl⟩
  | none =>
    have hl : LookupHost (farmWorld status) exampleConfig.resolver d =
        Except.ok (([], some "NXDOMAIN"),
          [Event.exchange d (pickServer (farmWorld status) exampleConfig.resolver d 0)]) := by
      unfold LookupHost
      rw [lookupHost]
      rfl
    simp only [hl]
    exact ⟨_, rfl⟩

theorem example_farm_checks (status : Nat → String → Int) (pass : Nat) (t : DomIp) :
    ∃ p, httpReq (farmWorld status) exampleConfig pass t = Except.ok p := by
  unfold httpReq
  simp only [farmWorld]
  split <;> exact ⟨_, rfl⟩

theorem example_run_flaky :
    pipeline (farmWorld flakyStatus) exampleConfig lifo
        ["10.0.0.1", "bad.invalid", "10.0.0.2", "10.0.0.3", "10.0.0.1"] =
      Except.ok exampleFinalFlaky := by
  have hd : removeDuplicates ["10.0.0.1", "bad.invalid", "10.0.0.2", "10.0.0.3", "10.0.0.1"] =
      ["10.0.0.1", "bad.invalid", "10.0.0.2", "10.0.0.3"] := by decide
  have h2 : resolvStep (farmWorld flakyStatus) exampleConfig "bad.invalid" =
      Except.ok ({ Dom := "bad.invalid", Ip := none, Body := "" },
        [Event.exchange "bad.invalid" "8.8.8.8:53"]) := by
    unfold resolvStep
    have hp : (farmWorld flakyStatus).ParseIP "bad.invalid" = none := by decide
    simp only [hp]
    show (match LookupHost (farmWorld flakyStatus) exampleResolver "bad.invalid" with
      | Except.error e => _
      | Except.ok ((ips, err), evs) => _) = _
    rw [example_lookup_farm]
  have hr : resolv (farmWorld flakyStatus) exampleConfig
      ["10.0.0.1", "bad.invalid", "10.0.0.2", "10.0.0.3"] =
      Except.ok ([{ Dom := "10.0.0.1", Ip := some [10, 0, 0, 1], Body := "" },
          { Dom := "bad.invalid", Ip := none, Body := "" },
          { Dom := "10.0.0.2", Ip := some [10, 0, 0, 2], Body := "" },
          { Dom := "10.0.0.3", Ip := some [10, 0, 0, 3], Body := "" }],
        [Event.exchange "bad.invalid" "8.8.8.8:53"]) := by
    have h1 : resolvStep (farmWorld flakyStatus) exampleConfig "10.0.0.1" =
        Except.ok ({ Dom := "10.0.0.1", Ip := some [10, 0, 0, 1], Body := "" }, []) := rfl
    have h3 : resolvStep (farmWorld flakyStatus) exampleConfig "10.0.0.2" =
        Except.ok ({ Dom := "10.0.0.2", Ip := some [10, 0, 0, 2], Body := "" }, []) := rfl
    have h4 : resolvStep (farmWorld flakyStatus) exampleConfig "10.0.0.3" =
        Except.ok ({ Dom := "10.0.0.3", Ip := some [10, 0, 0, 3], Body := "" }, []) := rfl
    simp only [resolv, h1, h2, h3, h4]
    rfl
  unfold pipeline
  simp only [hd, example_launched]
  rw [if_neg (by decide), hr]
  rfl

theorem example_run_eleven :
    pipeline (farmWorld (fun _ _ => 503)) exampleConfig fifo (farm.map Prod.fst) =
      Except.ok exampleFinalEleven := by
  have hd : removeDuplicates (farm.map Prod.fst) = farm.map Prod.fst := by decide
  have hr : resolv (farmWorld (fun _ _ => 503)) exampleConfig (farm.map Prod.fst) =
      Except.ok (farmTargets, []) := rfl
  unfold pipeline
  simp only [hd, example_launched]
  rw [if_neg (by decide), hr]
  rfl

theorem example_run_ten :
    pipeline (farmWorld (fun _ _ => 503)) exampleConfig fifo ((farm.map Prod.fst).take 10) =
      Except.ok exampleFinalTen := by
  have hd : removeDuplicates ((farm.map Prod.fst).take 10) = (farm.map Prod.fst).take 10 := by
    decide
  have hr : resolv (farmWorld (fun _ _ => 503)) exampleConfig ((farm.map Prod.fst).take 10) =
      Except.ok (farmTargets.take 10, []) := rfl
  unfold pipeline
  simp only [hd, example_launched]
  rw [if_neg (by decide), hr]
  rfl

/-! ## Settled claims: the pipeline -/

/-- C1: a run of the pipeline finishes whenever the flag `-c` is neither 0 nor the largest
`uint` and neither a resolution nor an HTTP check panics (at the largest `uint` the loop that
starts the workers never ends), and when it finishes the names of the dns-failure set are
distinct, the names of the final HTTP-failure set are distinct, both sets hold only names of
the deduplicated input, and each name of the deduplicated input is in exactly one of: neither
set (passed), the dns-failure set, the final HTTP-failure set.  The dns-failure set holds
exactly the names whose resolution gave no address; the pass-1 HTTP-failure set holds exactly
what the failing first checks of the resolved names leave, and the final HTTP-failure set
holds exactly those targets when the second pass is skipped and exactly what their failing
second checks leave when it runs. -/
theorem pipeline_partition (w : World) (c : Config) (sched : Sched) (args : List String) :
    (0 < c.concurrency % uintSize → c.concurrency % uintSize < uintSize - 1 →
        (∀ d ∈ removeDuplicates args, ∃ p, resolvStep w c d = Except.ok p) →
        (∀ pass t, ∃ p, httpReq w c pass t = Except.ok p) →
        ∃ f, pipeline w c sched args = Except.ok f) ∧
      (c.concurrency % uintSize = uintSize - 1 → ∀ f, pipeline w c sched args ≠ Except.ok f) ∧
      ∀ f, pipeline w c sched args = Except.ok f →
        (f.dnsErrors.Nodup ∧ (f.httpErr2Pass.map DomIp.Dom).Nodup ∧
          (∀ d ∈ f.dnsErrors, d ∈ removeDuplicates args) ∧
          (∀ d ∈ f.httpErr2Pass.map DomIp.Dom, d ∈ removeDuplicates args) ∧
          (∀ d ∈ removeDuplicates args,
            (d ∉ f.dnsErrors ∧ d ∉ f.httpErr2Pass.map DomIp.Dom) ∨
              (d ∈ f.dnsErrors ∧ d ∉ f.httpErr2Pass.map DomIp.Dom) ∨
              (d ∉ f.dnsErrors ∧ d ∈ f.httpErr2Pass.map DomIp.Dom)) ∧
          (∀ d, d ∈ f.dnsErrors ↔
            d ∈ removeDuplicates args ∧
              ∃ evs, resolvStep w c d = Except.ok ({ Dom := d, Ip := none, Body := "" }, evs)) ∧
          (∀ t ∈ f.httpErr2Pass, ∃ t0 evs, resolvStep w c t.Dom = Except.ok (t0, evs) ∧
            t0.Ip = t.Ip ∧ t.Ip ≠ none ∧ (failedCheck w c 1 t0).isSome = true)) ∧
        (∀ t1, t1 ∈ f.httpErr1Pass ↔
          ∃ t0 evs, t0.Dom ∈ removeDuplicates args ∧
            resolvStep w c t0.Dom = Except.ok (t0, evs) ∧ t0.Ip ≠ none ∧
            failedCheck w c 1 t0 = some t1) ∧
        (∀ t, t ∈ f.httpErr2Pass ↔
          ∃ t1 ∈ f.httpErr1Pass,
            if f.secondPass = true then failedCheck w c 2 t1 = some t else t1 = t) ∧
        (f.secondPass = true ↔ 1 ≤ f.httpErr1Pass.length ∧ f.httpErr1Pass.length ≤ 10) := by
  refine ⟨?_, ?_, ?_⟩
  · intro h0 hmax
    refine pipeline_total w c sched args ⟨c.concurrency % uintSize, ?_, by omega⟩
    rw [launched_eq, if_neg (by omega)]
  · intro hmax f hf
    rw [pipeline_never_ends w c sched args hmax] at hf
    cases hf
  intro f h
  refine ⟨?_, (final_http_iff w c sched args f h).1, (final_http_iff w c sched args f h).2, ?_⟩
  swap
  · obtain ⟨_, _, _, _, _, hiff, _, _⟩ := pipeline_ok w c sched args f h
    rw [hiff]
    constructor
    · rintro ⟨ha, hb⟩
      exact ⟨by omega, hb⟩
    · rintro ⟨ha, hb⟩
      exact ⟨by omega, hb⟩
  obtain ⟨targets, hmap, hall, hdns, h1o, h2o, hsub, hdperm⟩ := final_origin w c sched args f h
  have hnd : (targets.map DomIp.Dom).Nodup := by
    rw [hmap, removeDuplicates_eq_dedup]
    exact List.nodup_reverse.mpr (List.nodup_dedup _)
  have hndS : ((targets.filter (fun t => t.Ip.isSome)).map DomIp.Dom).Nodup :=
    hnd.sublist ((List.filter_sublist _).map DomIp.Dom)
  have hndN : ((targets.filter (fun t => t.Ip.isNone)).map DomIp.Dom).Nodup :=
    hnd.sublist ((List.filter_sublist _).map DomIp.Dom)
  have hdisj : ∀ d, d ∈ f.dnsErrors → d ∈ f.httpErr2Pass.map DomIp.Dom → False := by
    intro d hd hh
    obtain ⟨t, ht, hip, hdom⟩ := (hdns d).mp hd
    obtain ⟨t2, ht2, hdom2⟩ := List.mem_map.mp (hsub.subset hh)
    obtain ⟨ht2m, ht2s⟩ := List.mem_filter.mp ht2
    have heq : t = t2 := List.inj_on_of_nodup_map hnd ht ht2m (hdom.trans hdom2.symm)
    subst heq
    rw [hip] at ht2s
    cases ht2s
  refine ⟨hdperm.nodup_iff.mpr hndN, ?_, ?_, ?_, ?_, ?_, ?_⟩
  · obtain ⟨l, hl, hls⟩ := hsub
    exact hl.nodup_iff.mp (hndS.sublist hls)
  · intro d hd
    obtain ⟨t, ht, _, hdom⟩ := (hdns d).mp hd
    rw [← hmap]
    exact List.mem_map.mpr ⟨t, ht, hdom⟩
  · intro d hd
    obtain ⟨t, ht, hdom⟩ := List.mem_map.mp (hsub.subset hd)
    rw [← hmap]
    exact List.mem_map.mpr ⟨t, (List.mem_filter.mp ht).1, hdom⟩
  · intro d _
    by_cases hd : d ∈ f.dnsErrors
    · exact Or.inr (Or.inl ⟨hd, fun hh => hdisj d hd hh⟩)
    · by_cases hh : d ∈ f.httpErr2Pass.map DomIp.Dom
      · exact Or.inr (Or.inr ⟨hd, hh⟩)
      · exact Or.inl ⟨hd, hh⟩
  · intro d
    constructor
    · intro hd
      obtain ⟨t, ht, hip, hdom⟩ := (hdns d).mp hd
      obtain ⟨evs, hev⟩ := hall t ht
      have hbody := (resolvStep_ok w c t.Dom t evs hev).2
      refine ⟨by rw [← hmap]; exact List.mem_map.mpr ⟨t, ht, hdom⟩, evs, ?_⟩
      rw [← hdom, hev]
      cases t
      simp only at hip hbody
      rw [hip, hbody]
    · rintro ⟨hd, evs, hev⟩
      rw [← hmap] at hd
      obtain ⟨t, ht, hdom⟩ := List.mem_map.mp hd
      obtain ⟨evs1, hev1⟩ := hall t ht
      rw [hdom, hev] at hev1
      cases hev1
      exact (hdns d).mpr ⟨_, ht, rfl, rfl⟩
  · intro t ht
    obtain ⟨t1, ht1, hd1, hi1⟩ := h2o t ht
    obtain ⟨t0, ht0, hs0, hf0⟩ := h1o t1 ht1
    obtain ⟨hd0, hi0⟩ := failedCheck_some w c 1 t0 t1 hf0
    obtain ⟨evs, hev⟩ := hall t0 ht0
    refine ⟨t0, evs, ?_, ?_, ?_, ?_⟩
    · rw [← hd1, hd0]
      exact hev
    · rw [← hi1, hi0]
    · rw [← hi1, hi0]
      intro hnone
      rw [hnone] at hs0
      cases hs0
    · rw [hf0]
      rfl

theorem pipeline_partition_witness :
    (∃ f, pipeline (farmWorld flakyStatus) exampleConfig lifo
        ["10.0.0.1", "bad.invalid", "10.0.0.2", "10.0.0.3", "10.0.0.1"] = Except.ok f) ∧
      pipeline (farmWorld flakyStatus) exampleConfig lifo
        ["10.0.0.1", "bad.invalid", "10.0.0.2", "10.0.0.3", "10.0.0.1"] =
        Except.ok exampleFinalFlaky ∧
      exampleFinalFlaky.dnsErrors.Nodup ∧
      (exampleFinalFlaky.httpErr2Pass.map DomIp.Dom).Nodup ∧
      (∀ d ∈ removeDuplicates ["10.0.0.1", "bad.invalid", "10.0.0.2", "10.0.0.3", "10.0.0.1"],
        (d ∉ exampleFinalFlaky.dnsErrors ∧ d ∉ exampleFinalFlaky.httpErr2Pass.map DomIp.Dom) ∨
          (d ∈ exampleFinalFlaky.dnsErrors ∧
            d ∉ exampleFinalFlaky.httpErr2Pass.map DomIp.Dom) ∨
          (d ∉ exampleFinalFlaky.dnsErrors ∧
            d ∈ exampleFinalFlaky.httpErr2Pass.map DomIp.Dom)) ∧
      (∀ t, t ∈ exampleFinalFlaky.httpErr2Pass ↔
        ∃ t1 ∈ exampleFinalFlaky.httpErr1Pass,
          if exampleFinalFlaky.secondPass = true then
            failedCheck (farmWorld flakyStatus) exampleConfig 2 t1 = some t
          else t1 = t) :=
  ⟨(pipeline_partition (farmWorld flakyStatus) exampleConfig lifo
      ["10.0.0.1", "bad.invalid", "10.0.0.2", "10.0.0.3", "10.0.0.1"]).1
      (by unfold uintSize; decide) (by unfold uintSize; decide)
      (fun d _ => example_farm_resolves flakyStatus d)
      (fun pass t => example_farm_checks flakyStatus pass t),
    example_run_flaky,
    ((pipeline_partition (farmWorld flakyStatus) exampleConfig lifo
      ["10.0.0.1", "bad.invalid", "10.0.0.2", "10.0.0.3", "10.0.0.1"]).2.2
        exampleFinalFlaky example_run_flaky).1.1,
    ((pipeline_partition (farmWorld flakyStatus) exampleConfig lifo
      ["10.0.0.1", "bad.invalid", "10.0.0.2", "10.0.0.3", "10.0.0.1"]).2.2
        exampleFinalFlaky example_run_flaky).1.2.1,
    ((pipeline_partition (farmWorld flakyStatus) exampleConfig lifo
      ["10.0.0.1", "bad.invalid", "10.0.0.2", "10.0.0.3", "10.0.0.1"]).2.2
        exampleFinalFlaky example_run_flaky).1.2.2.2.2.1,
    ((pipeline_partition (farmWorld flakyStatus) exampleConfig lifo
      ["10.0.0.1", "bad.invalid", "10.0.0.2", "10.0.0.3", "10.0.0.1"]).2.2
        exampleFinalFlaky example_run_flaky).2.2.1⟩

/-- C2: when a run finishes, the pass-1 HTTP-failure set is what the failing first checks
of the resolved targets leave, and the second pass was skipped exactly when that set has 0
or more than 10 targets; then the final HTTP-failure set is the pass-1 set and no check is
made in a second pass, and otherwise the second pass checks exactly the targets of the
pass-1 set and the final set is what their failing second checks leave.  With 0 failures
the final set is empty, with 11 it is those 11 targets, and with 10 the second pass runs
and checks those 10 targets. -/
theorem second_pass_decision (w : World) (c : Config) (sched : Sched) (args : List String)
    (f : Final) (h : pipeline w c sched args = Except.ok f) :
    (∃ targets, resolv w c (removeDuplicates args) = Except.ok (targets, f.exchanges) ∧
        f.checked1 = targets.filter (fun t => t.Ip.isSome) ∧
        f.httpErr1Pass.Perm (f.checked1.filterMap (failedCheck w c 1))) ∧
      (f.secondPass = false ↔ f.httpErr1Pass.length = 0 ∨ f.httpErr1Pass.length > 10) ∧
      (f.secondPass = false → f.httpErr2Pass = f.httpErr1Pass ∧ f.checked2 = []) ∧
      (f.secondPass = true →
        f.checked2.Perm f.httpErr1Pass ∧
          f.httpErr2Pass.Perm (f.httpErr1Pass.filterMap (failedCheck w c 2))) ∧
      (f.httpErr1Pass.length = 0 → f.secondPass = false ∧ f.httpErr2Pass = []) ∧
      (f.httpErr1Pass.length = 11 →
        f.secondPass = false ∧ f.httpErr2Pass = f.httpErr1Pass ∧ f.httpErr2Pass.length = 11) ∧
      (f.httpErr1Pass.length = 10 →
        f.secondPass = true ∧ f.checked2.Perm f.httpErr1Pass ∧ f.checked2.length = 10) := by
  obtain ⟨targets, hres, _, hh1, hck1, hiff, hskip, hrun⟩ := pipeline_ok w c sched args f h
  have hfalse : f.secondPass = false ↔
      f.httpErr1Pass.length = 0 ∨ f.httpErr1Pass.length > 10 := by
    constructor
    · intro hf
      by_contra hcon
      have : f.secondPass = true := hiff.mpr ⟨by omega, by omega⟩
      rw [hf] at this
      cases this
    · intro hl
      cases hsp : f.secondPass with
      | false => rfl
      | true =>
        have := hiff.mp hsp
        omega
  refine ⟨⟨targets, hres, hck1, by rw [hck1]; exact hh1⟩, hfalse, hskip, ?_, ?_, ?_, ?_⟩
  · intro ht
    refine ⟨?_, (hrun ht).1⟩
    rw [(hrun ht).2]
  · intro h0
    have hf := hfalse.mpr (Or.inl h0)
    refine ⟨hf, ?_⟩
    rw [(hskip hf).1]
    exact List.length_eq_zero.mp h0
  · intro h11
    have hf := hfalse.mpr (Or.inr (by omega))
    refine ⟨hf, (hskip hf).1, ?_⟩
    rw [(hskip hf).1]
    exact h11
  · intro h10
    have ht := hiff.mpr ⟨by omega, by omega⟩
    refine ⟨ht, ?_, ?_⟩
    · rw [(hrun ht).2]
    · rw [(hrun ht).2]
      exact h10

theorem second_pass_decision_witness :
    (pipeline (farmWorld (fun _ _ => 503)) exampleConfig fifo (farm.map Prod.fst) =
        Except.ok exampleFinalEleven ∧
      exampleFinalEleven.httpErr1Pass.length = 11 ∧
      exampleFinalEleven.secondPass = false ∧
      exampleFinalEleven.httpErr2Pass = exampleFinalEleven.httpErr1Pass ∧
      exampleFinalEleven.httpErr2Pass.length = 11) ∧
    (pipeline (farmWorld (fun _ _ => 503)) exampleConfig fifo ((farm.map Prod.fst).take 10) =
        Except.ok exampleFinalTen ∧
      exampleFinalTen.httpErr1Pass.length = 10 ∧
      exampleFinalTen.secondPass = true ∧
      exampleFinalTen.checked2.Perm exampleFinalTen.httpErr1Pass ∧
      exampleFinalTen.checked2.length = 10) ∧
    (pipeline (exampleWorld 3 [] 200) exampleConfig fifo
        ["10.0.0.1", "bad.invalid", "10.0.0.1"] = Except.ok exampleFinalMixed ∧
      exampleFinalMixed.httpErr1Pass.length = 0 ∧
      exampleFinalMixed.secondPass = false ∧ exampleFinalMixed.httpErr2Pass = []) ∧
    (pipeline (farmWorld flakyStatus) exampleConfig lifo
        ["10.0.0.1", "bad.invalid", "10.0.0.2", "10.0.0.3", "10.0.0.1"] =
        Except.ok exampleFinalFlaky ∧
      exampleFinalFlaky.secondPass = true ∧
      exampleFinalFlaky.checked2.Perm exampleFinalFlaky.httpErr1Pass ∧
      exampleFinalFlaky.httpErr2Pass.Perm
        (exampleFinalFlaky.httpErr1Pass.filterMap
          (failedCheck (farmWorld flakyStatus) exampleConfig 2))) :=
  ⟨⟨example_run_eleven, rfl,
      (second_pass_decision (farmWorld (fun _ _ => 503)) exampleConfig fifo (farm.map Prod.fst)
        exampleFinalEleven example_run_eleven).2.2.2.2.2.1 rfl⟩,
    ⟨example_run_ten, rfl,
      (second_pass_decision (farmWorld (fun _ _ => 503)) exampleConfig fifo
        ((farm.map Prod.fst).take 10) exampleFinalTen example_run_ten).2.2.2.2.2.2 rfl⟩,
    ⟨example_run_mixed, rfl,
      (second_pass_decision (exampleWorld 3 [] 200) exampleConfig fifo
        ["10.0.0.1", "bad.invalid", "10.0.0.1"] exampleFinalMixed
        example_run_mixed).2.2.2.2.1 rfl⟩,
    ⟨example_run_flaky, rfl,
      (second_pass_decision (farmWorld flakyStatus) exampleConfig lifo
        ["10.0.0.1", "bad.invalid", "10.0.0.2", "10.0.0.3", "10.0.0.1"] exampleFinalFlaky
        example_run_flaky).2.2.2.1 rfl⟩⟩

/-- C3: when a run finishes and pass 1 left between 1 and 10 HTTP failures, the second pass
runs, its calls of `httpReq` are exactly those targets, each carrying the address the
resolution of pass 1 gave it, every DNS exchange of the run belongs to the resolution of
pass 1, and the final HTTP-failure set is exactly what the failing second checks of those
targets leave. -/
theorem second_pass_targets (w : World) (c : Config) (sched : Sched) (args : List String)
    (f : Final) (h : pipeline w c sched args = Except.ok f)
    (h1 : 1 ≤ f.httpErr1Pass.length) (h10 : f.httpErr1Pass.length ≤ 10) :
    f.secondPass = true ∧ f.checked2.Perm f.httpErr1Pass ∧
      (∀ t ∈ f.checked2, t.Ip ≠ none ∧ t.Dom ∈ removeDuplicates args ∧
        ∃ t0 evs, resolvStep w c t.Dom = Except.ok (t0, evs) ∧ t0.Ip = t.Ip) ∧
      (∃ targets, resolv w c (removeDuplicates args) = Except.ok (targets, f.exchanges)) ∧
      f.httpErr2Pass.Perm (f.httpErr1Pass.filterMap (failedCheck w c 2)) ∧
      (∀ t, t ∈ f.httpErr2Pass ↔
        ∃ t1 ∈ f.httpErr1Pass, ∃ e, httpReq w c 2 t1 = Except.ok (t, some e)) := by
  obtain ⟨targets, hres, _, _, _, hiff, _, hrun⟩ := pipeline_ok w c sched args f h
  obtain ⟨targets1, hmap, hall, _, h1o, _, _, _⟩ := final_origin w c sched args f h
  have ht : f.secondPass = true := hiff.mpr ⟨by omega, h10⟩
  obtain ⟨hperm2, hck2⟩ := hrun ht
  refine ⟨ht, by rw [hck2], ?_, ⟨targets, hres⟩, hperm2, ?_⟩
  · intro t htc
    rw [hck2] at htc
    obtain ⟨t0, ht0, hs0, hf0⟩ := h1o t htc
    obtain ⟨hd0, hi0⟩ := failedCheck_some w c 1 t0 t hf0
    obtain ⟨evs, hev⟩ := hall t0 ht0
    refine ⟨?_, ?_, t0, evs, ?_, hi0.symm⟩
    · rw [hi0]
      intro hnone
      rw [hnone] at hs0
      cases hs0
    · rw [← hmap, hd0]
      exact List.mem_map.mpr ⟨t0, ht0, rfl⟩
    · rw [hd0]
      exact hev
  · intro t
    rw [hperm2.mem_iff, List.mem_filterMap]
    constructor
    · rintro ⟨t1, ht1, hf⟩
      exact ⟨t1, ht1, (failedCheck_eq_some_iff w c 2 t1 t).mp hf⟩
    · rintro ⟨t1, ht1, he⟩
      exact ⟨t1, ht1, (failedCheck_eq_some_iff w c 2 t1 t).mpr he⟩

theorem second_pass_targets_witness :
    (pipeline (exampleWorld 0 [] 503) exampleConfig fifo ["10.0.0.1"] =
        Except.ok exampleFinalLiteral ∧
      1 ≤ exampleFinalLiteral.httpErr1Pass.length ∧
      exampleFinalLiteral.httpErr1Pass.length ≤ 10) ∧
    exampleFinalLiteral.secondPass = true ∧
    exampleFinalLiteral.checked2.Perm exampleFinalLiteral.httpErr1Pass ∧
    exampleFinalLiteral.httpErr2Pass.Perm
      (exampleFinalLiteral.httpErr1Pass.filterMap
        (failedCheck (exampleWorld 0 [] 503) exampleConfig 2)) :=
  ⟨⟨example_run_literal, by decide, by decide⟩,
    (second_pass_targets (exampleWorld 0 [] 503) exampleConfig fifo ["10.0.0.1"]
      exampleFinalLiteral example_run_literal (by decide) (by decide)).1,
    (second_pass_targets (exampleWorld 0 [] 503) exampleConfig fifo ["10.0.0.1"]
      exampleFinalLiteral example_run_literal (by decide) (by decide)).2.1,
    (second_pass_targets (exampleWorld 0 [] 503) exampleConfig fifo ["10.0.0.1"]
      exampleFinalLiteral example_run_literal (by decide) (by decide)).2.2.2.2.1⟩

end HttpCheck
